import Mathlib

/-!
# Payment gateway submission and WKB point encoding

A shallow embedding of `webapp/go/payment_gateway.go` (namespace `PaymentGateway`)
and `webapp/go/geo.go` (namespace `Geo`).

* The network, the URL parser, the JSON decoder and the clock-driven
  exponential back-off are external to the program; they are collected in a
  `World` of oracles, indexed by the attempt number where they are stateful.
* `operation` is the closure of `requestPaymentGatewayPostPayment` (lines 47-98);
  it returns the Go `error` (as `Except`) together with the external
  interactions it performed.
* `Retry`, `backOffTries` and `WithMaxRetries` follow
  `github.com/cenkalti/backoff/v4` (`retry.go`, `tries.go`), the library the
  program calls on line 100.
* In `Geo`, a `float64` is its IEEE 754 bit pattern, a natural number below
  `2 ^ 64`, so that `math.Float64bits` and `math.Float64frombits` are the
  identity; a byte slice is a list of natural numbers below 256.
-/

namespace PaymentGateway

/-! ## Data model -/

/-- Body of `POST /payments` (lines 30-32). -/
structure paymentGatewayPostPaymentRequest where
  Amount : Int
  deriving DecidableEq, Repr

/-- One element of the `GET /payments` answer (lines 34-37). -/
structure paymentGatewayGetPaymentsResponseOne where
  Amount : Int
  Status : String
  deriving DecidableEq, Repr

/-- The sentinel `erroredUpstream` of line 16. -/
def erroredUpstream : String := "errored upstream"

/-- The Go `error` value the callback may return. The closure hands it on
unchanged (line 88), and `backoff.Retry` inspects it with `errors.As`, so what
matters is whether its chain holds a `*backoff.PermanentError`. -/
inductive CallbackError where
  /-- An error with no `*backoff.PermanentError` in its chain. -/
  | plain (msg : String)
  /-- The error `backoff.Permanent(inner)` builds, for a non-nil `inner`
  (`backoff.Permanent(nil)` is nil). -/
  | permanent (inner : CallbackError)
  /-- An error that wraps `inner` (its `Unwrap` returns `inner`). -/
  | wrap (msg : String) (inner : CallbackError)
  deriving DecidableEq, Repr

/-- The text of a callback error: a `*backoff.PermanentError` prints its inner
error. -/
def CallbackError.Error : CallbackError → String
  | .plain msg => msg
  | .permanent inner => inner.Error
  | .wrap msg _ => msg

/-- `errors.As(err, &permanent)` followed by `permanent.Err`: the inner error of
the first `*backoff.PermanentError` in the chain, if there is one. -/
def CallbackError.asPermanent : CallbackError → Option CallbackError
  | .plain _ => none
  | .permanent inner => some inner
  | .wrap _ inner => inner.asPermanent

/-- The error values the closure can return, one constructor per `return err`
site of the source. -/
inductive PaymentError where
  /-- `http.NewRequestWithContext` failed (lines 49-51 and 65-67). -/
  | newRequest (msg : String)
  /-- `httpClient.Do` failed (lines 56-58 and 71-73). -/
  | transport (msg : String)
  /-- `GET /payments` answered with a status other than 200 (line 77). -/
  | unexpectedStatus (code : Int)
  /-- The body of `GET /payments` could not be decoded (lines 80-83). -/
  | decode (msg : String)
  /-- The callback `retrieveRidesOrderByCreatedAtAsc` failed (lines 87-89); its
  error is returned as it is. -/
  | retrieve (err : CallbackError)
  /-- The two lengths differ (line 92); wraps `erroredUpstream`. -/
  | unexpectedCount (rides payments : Nat)
  deriving DecidableEq, Repr

/-- The text of an error, as `err.Error()` prints it. -/
def PaymentError.Error : PaymentError → String
  | .newRequest msg => msg
  | .transport msg => msg
  | .unexpectedStatus code =>
      "[GET /payments] unexpected status code (" ++ toString code ++ ")"
  | .decode msg => msg
  | .retrieve err => err.Error
  | .unexpectedCount rides payments =>
      "unexpected number of payments: " ++ toString rides ++ " != " ++
        toString payments ++ ". " ++ erroredUpstream

/-- Whether `errors.Is(err, erroredUpstream)` holds: only the error built with
the `%w` verb on line 92 wraps the sentinel. -/
def PaymentError.wrapsErroredUpstream : PaymentError → Bool
  | .unexpectedCount _ _ => true
  | _ => false

/-- An outgoing HTTP request. -/
structure Request where
  method : String
  url : String
  header : List (String × String)
  body : String
  deriving DecidableEq, Repr

/-- The part of an HTTP response the program looks at. -/
structure Response where
  StatusCode : Int
  Body : String
  deriving DecidableEq, Repr

/-- `http.StatusNoContent`. -/
def StatusNoContent : Int := 204

/-- `http.StatusOK`. -/
def StatusOK : Int := 200

/-- The points in time at which the calling context can be observed. -/
inductive Moment where
  | post (attempt : Nat)
  | get (attempt : Nat)
  | sleep (attempt : Nat)
  deriving DecidableEq, Repr

/-- A `context.Context`, reduced to whether it is done at a given moment. -/
abbrev Context := Moment → Bool

/-- A cancelled context stays cancelled. -/
def Context.Monotone (ctx : Context) : Prop :=
  (∀ i, ctx (.post i) = true → ctx (.get i) = true) ∧
  (∀ i, ctx (.get i) = true → ctx (.sleep i) = true) ∧
  (∀ i, ctx (.sleep i) = true → ctx (.post (i + 1)) = true)

/-- External interactions of the closure, in the order they happen. -/
inductive Event where
  /-- A request was handed to `httpClient.Do` (lines 55 and 70). -/
  | request (attempt : Nat) (req : Request)
  /-- The callback `retrieveRidesOrderByCreatedAtAsc` was invoked (line 86). -/
  | callback (attempt : Nat)
  deriving DecidableEq, Repr

/-- Everything outside the program: the URL parser used by
`http.NewRequestWithContext`, the network behind `httpClient`, the JSON
decoder reading a response body, and the intervals produced by
`backoff.NewExponentialBackOff` (`none` is `backoff.Stop`, returned once
`MaxElapsedTime` is exceeded). -/
structure World where
  parseURL : String → Option String
  roundTrip : Nat → Request → Except String Response
  decodePayments : String → Except String (List paymentGatewayGetPaymentsResponseOne)
  nextInterval : Nat → Option Nat

/-! ## Library functions used by the closure -/

/-- `json.Marshal(param)` for `*paymentGatewayPostPaymentRequest`: a struct of one
`int` field always encodes, and a nil pointer encodes as `null`. -/
def jsonMarshal : Option paymentGatewayPostPaymentRequest → String
  | none => "null"
  | some p => "\x7b\"amount\":" ++ toString p.Amount ++ "\x7d"

/-- `http.NewRequestWithContext(ctx, method, url, body)` with a non-nil context
and one of the constant methods of the source: it fails exactly when the URL
does not parse. -/
def NewRequestWithContext (w : World) (method url body : String) :
    Except PaymentError Request :=
  match w.parseURL url with
  | some msg => .error (.newRequest msg)
  | none => .ok { method := method, url := url, header := [], body := body }

/-- `req.Header.Set(key, value)`. -/
def Request.HeaderSet (req : Request) (key value : String) : Request :=
  { req with header := req.header.filter (fun kv => kv.1 ≠ key) ++ [(key, value)] }

/-- `httpClient.Do(req)`: a request whose context is already done fails with the
context's error; otherwise the network decides. -/
def httpClientDo (w : World) (done : Bool) (attempt : Nat) (req : Request) :
    Except PaymentError Response :=
  if done then .error (.transport "context canceled")
  else
    match w.roundTrip attempt req with
    | .error msg => .error (.transport msg)
    | .ok res => .ok res

/-! ## The closure `operation` (lines 47-98) -/

/-- The POST request of lines 48-53. -/
def postRequest (w : World) (paymentGatewayURL token b : String) :
    Except PaymentError Request :=
  match NewRequestWithContext w "POST" (paymentGatewayURL ++ "/payments") b with
  | .error err => .error err
  | .ok req =>
      .ok ((req.HeaderSet "Content-Type" "application/json").HeaderSet
        "Authorization" ("Bearer " ++ token))

/-- The GET request of lines 64-68. -/
def getRequest (w : World) (paymentGatewayURL token : String) :
    Except PaymentError Request :=
  match NewRequestWithContext w "GET" (paymentGatewayURL ++ "/payments") "" with
  | .error err => .error err
  | .ok getReq => .ok (getReq.HeaderSet "Authorization" ("Bearer " ++ token))

/-- The reconciliation branch, lines 63-95, entered when the POST answered with
a status other than 204. -/
def reconcile {Ride : Type} (w : World) (ctx : Context)
    (paymentGatewayURL token : String)
    (retrieveRidesOrderByCreatedAtAsc : Nat → Except CallbackError (List Ride))
    (attempt : Nat) : Except PaymentError Unit × List Event :=
  match getRequest w paymentGatewayURL token with
  | .error err => (.error err, [])
  | .ok getReq =>
    match httpClientDo w (ctx (.get attempt)) attempt getReq with
    | .error err => (.error err, [.request attempt getReq])
    | .ok getRes =>
      if getRes.StatusCode ≠ StatusOK then
        (.error (.unexpectedStatus getRes.StatusCode), [.request attempt getReq])
      else
        match w.decodePayments getRes.Body with
        | .error msg => (.error (.decode msg), [.request attempt getReq])
        | .ok payments =>
          match retrieveRidesOrderByCreatedAtAsc attempt with
          | .error err =>
              (.error (.retrieve err), [.request attempt getReq, .callback attempt])
          | .ok rides =>
            if rides.length ≠ payments.length then
              (.error (.unexpectedCount rides.length payments.length),
                [.request attempt getReq, .callback attempt])
            else
              (.ok (), [.request attempt getReq, .callback attempt])

/-- One execution of the closure: the returned error and the interactions
performed. -/
def operation {Ride : Type} (w : World) (ctx : Context)
    (paymentGatewayURL token b : String)
    (retrieveRidesOrderByCreatedAtAsc : Nat → Except CallbackError (List Ride))
    (attempt : Nat) : Except PaymentError Unit × List Event :=
  match postRequest w paymentGatewayURL token b with
  | .error err => (.error err, [])
  | .ok req =>
    match httpClientDo w (ctx (.post attempt)) attempt req with
    | .error err => (.error err, [.request attempt req])
    | .ok res =>
      if res.StatusCode ≠ StatusNoContent then
        let r := reconcile w ctx paymentGatewayURL token
          retrieveRidesOrderByCreatedAtAsc attempt
        (r.1, .request attempt req :: r.2)
      else
        (.ok (), [.request attempt req])

/-! ## Sample worlds -/

/-- A context that is never cancelled. -/
def liveContext : Context := fun _ => false

/-- A context cancelled during the back-off sleep that follows attempt 0. -/
def cancelledInFirstSleep : Context
  | .post i => decide (0 < i)
  | .get i => decide (0 < i)
  | .sleep _ => true

/-- Three payment records. -/
def threeRecords : List paymentGatewayGetPaymentsResponseOne :=
  [⟨500, "COMPLETED"⟩, ⟨550, "COMPLETED"⟩, ⟨600, "COMPLETED"⟩]

/-- A gateway that answers every POST with 204; its ledger holds one record. -/
def gatewayAccepting : World where
  parseURL := fun _ => none
  roundTrip := fun _ req =>
    if req.method = "POST" then .ok ⟨204, ""⟩ else .ok ⟨200, "[one record]"⟩
  decodePayments := fun _ => .ok [⟨500, "COMPLETED"⟩]
  nextInterval := fun _ => some 50

/-- A gateway that answers every POST with 500 and whose ledger holds three
records. -/
def gatewayAmbiguous : World where
  parseURL := fun _ => none
  roundTrip := fun _ req =>
    if req.method = "POST" then .ok ⟨500, ""⟩ else .ok ⟨200, "[three records]"⟩
  decodePayments := fun _ => .ok threeRecords
  nextInterval := fun _ => some 50

/-- A gateway that answers every POST with 500 and every GET with 503. -/
def gatewayBroken : World where
  parseURL := fun _ => none
  roundTrip := fun _ req =>
    if req.method = "POST" then .ok ⟨500, ""⟩ else .ok ⟨503, ""⟩
  decodePayments := fun _ => .error "unexpected end of JSON input"
  nextInterval := fun _ => some 50

/-- A gateway that cannot be reached: every connection is refused. -/
def gatewayDown : World where
  parseURL := fun _ => none
  roundTrip := fun _ _ => .error "connection refused"
  decodePayments := fun _ => .error "unexpected end of JSON input"
  nextInterval := fun _ => some 50

/-- A world whose URL parser rejects control characters, as `url.Parse` does; a
gateway URL with a trailing line break does not parse there. -/
def gatewayMisconfigured : World where
  parseURL := fun url =>
    if url.toList.any (fun c => c.toNat < 32 || c.toNat == 127) then
      some "net/url: invalid control character in URL"
    else none
  roundTrip := fun _ _ => .ok ⟨204, ""⟩
  decodePayments := fun _ => .ok []
  nextInterval := fun _ => some 50

/-- A caller with three rides. -/
def threeRides : Nat → Except CallbackError (List String) :=
  fun _ => .ok ["ride-1", "ride-2", "ride-3"]

/-- A caller whose ride query fails with an error it marked as permanent:
`backoff.Permanent(errors.New("sql: database is closed"))`. -/
def permanentlyFailingRides : Nat → Except CallbackError (List String) :=
  fun _ => .error (.permanent (.plain "sql: database is closed"))

/-- The POST request sent to `http://gw` with token `t` for an amount. -/
def samplePost (amount : Int) : Request where
  method := "POST"
  url := "http://gw/payments"
  header := [("Content-Type", "application/json"), ("Authorization", "Bearer t")]
  body := jsonMarshal (some ⟨amount⟩)

/-- The GET request sent to `http://gw` with token `t`. -/
def sampleGet : Request where
  method := "GET"
  url := "http://gw/payments"
  header := [("Authorization", "Bearer t")]
  body := ""

/-- Whether an interaction is a POST handed to `httpClient.Do`. -/
def Event.isPost : Event → Bool
  | .request _ req => req.method == "POST"
  | .callback _ => false

/-- The payment records the gateway holds at the time of attempt `attempt`: what
`GET /payments` delivers then, when it answers 200 with a decodable list. -/
def gatewayRecords (w : World) (paymentGatewayURL token : String) (attempt : Nat) :
    Option (List paymentGatewayGetPaymentsResponseOne) :=
  match getRequest w paymentGatewayURL token with
  | .error _ => none
  | .ok getReq =>
    match w.roundTrip attempt getReq with
    | .error _ => none
    | .ok getRes =>
      if getRes.StatusCode = StatusOK then
        match w.decodePayments getRes.Body with
        | .error _ => none
        | .ok payments => some payments
      else none

/-! ## `backoff.Retry` with `backoff.WithMaxRetries` -/

/-- The wrapper `backOffTries` of `tries.go`. -/
structure backOffTries where
  maxTries : Nat
  numTries : Nat
  deriving DecidableEq, Repr

/-- `backoff.WithMaxRetries(b, max)`; the delegate is passed to `NextBackOff`. -/
def WithMaxRetries (max : Nat) : backOffTries :=
  { maxTries := max, numTries := 0 }

/-- `(*backOffTries).Reset`. -/
def backOffTries.Reset (b : backOffTries) : backOffTries :=
  { b with numTries := 0 }

/-- `(*backOffTries).NextBackOff`: `Stop` (`none`) when `maxTries` is zero or
already reached, otherwise count the try and ask the delegate. -/
def backOffTries.NextBackOff (delegate : Nat → Option Nat) (b : backOffTries) :
    Option Nat × backOffTries :=
  if b.maxTries = 0 then (none, b)
  else if b.maxTries ≤ b.numTries then (none, b)
  else (delegate b.numTries, { b with numTries := b.numTries + 1 })

/-- What a call of `Retry` leaves behind: the returned error, how many times the
operation ran, and every interaction in order. -/
structure RetryResult (ε : Type) where
  err : Option ε
  attempts : Nat
  trace : List Event
  deriving Repr

set_option linter.unusedVariables false in
/-- The loop of `doRetryNotify` in `retry.go`, after `b.Reset()`. `permanent`
is `errors.As(err, &permanent)`, `ctxErr` is `ctx.Err()` of the context found
by `getContext(b)`, observed while attempt `attempt` backs off. -/
def retryLoop {ε : Type} (operation : Nat → Except ε Unit × List Event)
    (permanent : ε → Option ε) (delegate : Nat → Option Nat)
    (ctxErr : Nat → Option ε) (b : backOffTries) (attempt : Nat)
    (trace : List Event) : RetryResult ε :=
  match (operation attempt).1 with
  | .ok _ =>
      { err := none, attempts := attempt + 1, trace := trace ++ (operation attempt).2 }
  | .error err =>
    match permanent err with
    | some inner =>
        { err := some inner, attempts := attempt + 1,
          trace := trace ++ (operation attempt).2 }
    | none =>
      match h : b.NextBackOff delegate with
      | (none, _) =>
        match ctxErr attempt with
        | some cerr =>
            { err := some cerr, attempts := attempt + 1,
              trace := trace ++ (operation attempt).2 }
        | none =>
            { err := some err, attempts := attempt + 1,
              trace := trace ++ (operation attempt).2 }
      | (some _, b') =>
        match ctxErr attempt with
        | some cerr =>
            { err := some cerr, attempts := attempt + 1,
              trace := trace ++ (operation attempt).2 }
        | none =>
            retryLoop operation permanent delegate ctxErr b' (attempt + 1)
              (trace ++ (operation attempt).2)
termination_by b.maxTries - b.numTries
decreasing_by
  unfold backOffTries.NextBackOff at h
  split_ifs at h with h1 h2
  · simp at h
  · simp at h
  · simp only [Prod.mk.injEq] at h
    obtain ⟨_, hb⟩ := h
    subst hb
    simp only
    omega

/-- `backoff.Retry(operation, b)`. -/
def Retry {ε : Type} (operation : Nat → Except ε Unit × List Event)
    (permanent : ε → Option ε) (delegate : Nat → Option Nat)
    (ctxErr : Nat → Option ε) (b : backOffTries) : RetryResult ε :=
  retryLoop operation permanent delegate ctxErr b.Reset 0 []

/-- `errors.As(err, &permanent)` on an error of the closure, giving
`permanent.Err`. The errors built on lines 77 and 92 and those of `net/http`
and `encoding/json` hold no `*backoff.PermanentError`; the callback's error may. -/
def asPermanent : PaymentError → Option PaymentError
  | .retrieve err => err.asPermanent.map .retrieve
  | _ => none

/-- The context `getContext` finds in a `backOffTries` around an
`ExponentialBackOff`: `context.Background()`, which is never done. -/
def backgroundErr : Nat → Option PaymentError := fun _ => none

/-- The function `requestPaymentGatewayPostPayment` (lines 39-105). -/
def requestPaymentGatewayPostPayment {Ride : Type} (w : World) (ctx : Context)
    (paymentGatewayURL token : String)
    (param : Option paymentGatewayPostPaymentRequest)
    (retrieveRidesOrderByCreatedAtAsc : Nat → Except CallbackError (List Ride)) :
    RetryResult PaymentError :=
  let b := jsonMarshal param
  Retry (operation w ctx paymentGatewayURL token b retrieveRidesOrderByCreatedAtAsc)
    asPermanent w.nextInterval backgroundErr (WithMaxRetries 5)

/-- What the loop guarantees when the loop's own context is never done: how
many times the operation ran; that all runs but the last failed with an error
that is not permanent and were followed by a back-off interval; that a nil
result comes from a last run returning nil; that an error result is either the
error of the last run, not permanent, returned once the retries are used up or
the back-off stops, or the inner error of a permanent error of the last run;
and what the trace is. -/
structure LoopSpec {ε : Type} (op : Nat → Except ε Unit × List Event)
    (permanent : ε → Option ε) (delegate : Nat → Option Nat) (b : backOffTries)
    (attempt : Nat) (trace : List Event) (res : RetryResult ε) : Prop where
  lower : attempt + 1 ≤ res.attempts
  upper : res.attempts ≤ attempt + (b.maxTries - b.numTries) + 1
  earlier : ∀ j, attempt ≤ j → j + 1 < res.attempts →
    (∃ e, (op j).1 = .error e ∧ permanent e = none) ∧
      ∃ d, delegate (b.numTries + (j - attempt)) = some d
  success : res.err = none → ∃ u, (op (res.attempts - 1)).1 = .ok u
  failure : ∀ e, res.err = some e →
    ((op (res.attempts - 1)).1 = .error e ∧ permanent e = none ∧
      (b.maxTries ≤ b.numTries + (res.attempts - 1 - attempt) ∨
        delegate (b.numTries + (res.attempts - 1 - attempt)) = none)) ∨
    (∃ e2, (op (res.attempts - 1)).1 = .error e2 ∧ permanent e2 = some e)
  events : res.trace =
    trace ++ ((List.range' attempt (res.attempts - attempt)).map (fun j => (op j).2)).flatten

end PaymentGateway

namespace Geo

/-! ## `webapp/go/geo.go` -/

/-- The struct `GeoPoint` (lines 10-13); Go `int` is a 64-bit integer. -/
structure GeoPoint where
  Lat : Int
  Lon : Int
  deriving DecidableEq, Repr

/-- The dynamic value handed to `Scan`: nil, a byte slice (numbers below 256), or
a value of another type, of which only the type name matters. -/
inductive Src where
  | nil
  | bytes (b : List Nat)
  | other (typeName : String)
  deriving DecidableEq, Repr

/-- The conversion `float64(n)` of an `int`, as an IEEE 754 binary64 bit pattern
(`math.Float64bits`): sign, biased exponent, 52 fraction bits, rounding to
nearest, ties to even, when the integer has more than 53 significant bits. -/
def float64OfInt (n : Int) : Nat :=
  if n = 0 then 0
  else
    let a := n.natAbs
    let sign := if n < 0 then 2 ^ 63 else 0
    let e := Nat.log2 a
    if e ≤ 52 then
      sign + (e + 1023) * 2 ^ 52 + (a * 2 ^ (52 - e) - 2 ^ 52)
    else
      let shift := e - 52
      let q := a / 2 ^ shift
      let r := a % 2 ^ shift
      let half := 2 ^ (shift - 1)
      let rounded := if half < r ∨ (r = half ∧ q % 2 = 1) then q + 1 else q
      sign + (e + 1023) * 2 ^ 52 + (rounded - 2 ^ 52)

/-- The conversion `int(x)` of the `float64` with the given bit pattern
(`math.Float64frombits`): the fraction is discarded. For NaN, the infinities
and values outside the `int` range Go leaves the result to the implementation;
`impl` stands for that choice. -/
def intOfFloat64 (impl : Nat → Int) (bits : Nat) : Int :=
  let negative := bits / 2 ^ 63 % 2
  let e := bits / 2 ^ 52 % 2048
  let m := bits % 2 ^ 52
  if e = 2047 then impl bits
  else if e < 1023 then 0
  else
    let sig : Nat := 2 ^ 52 + m
    let mag : Nat := if 1075 ≤ e then sig * 2 ^ (e - 1075) else sig / 2 ^ (1075 - e)
    if negative = 1 then
      if mag ≤ 2 ^ 63 then -(mag : Int) else impl bits
    else
      if mag < 2 ^ 63 then (mag : Int) else impl bits

/-- The slice expression `b[lo:hi]`. -/
def slice (b : List Nat) (lo hi : Nat) : List Nat :=
  (b.take hi).drop lo

/-- The byte orders of `encoding/binary`. -/
inductive ByteOrder where
  | LittleEndian
  | BigEndian
  deriving DecidableEq, Repr

/-- `order.Uint32(b)`; the bytes are below 256, so the shifted bytes do not
overlap and `|` is addition. -/
def ByteOrder.Uint32 (order : ByteOrder) (b : List Nat) : Nat :=
  match order with
  | .LittleEndian =>
      b.getD 0 0 + b.getD 1 0 * 2 ^ 8 + b.getD 2 0 * 2 ^ 16 + b.getD 3 0 * 2 ^ 24
  | .BigEndian =>
      b.getD 3 0 + b.getD 2 0 * 2 ^ 8 + b.getD 1 0 * 2 ^ 16 + b.getD 0 0 * 2 ^ 24

/-- `order.Uint64(b)`. -/
def ByteOrder.Uint64 (order : ByteOrder) (b : List Nat) : Nat :=
  match order with
  | .LittleEndian =>
      b.getD 0 0 + b.getD 1 0 * 2 ^ 8 + b.getD 2 0 * 2 ^ 16 + b.getD 3 0 * 2 ^ 24 +
        b.getD 4 0 * 2 ^ 32 + b.getD 5 0 * 2 ^ 40 + b.getD 6 0 * 2 ^ 48 + b.getD 7 0 * 2 ^ 56
  | .BigEndian =>
      b.getD 7 0 + b.getD 6 0 * 2 ^ 8 + b.getD 5 0 * 2 ^ 16 + b.getD 4 0 * 2 ^ 24 +
        b.getD 3 0 * 2 ^ 32 + b.getD 2 0 * 2 ^ 40 + b.getD 1 0 * 2 ^ 48 + b.getD 0 0 * 2 ^ 56

/-- The bytes `binary.LittleEndian.PutUint32` stores: `byte(v)`, `byte(v >> 8)`,
`byte(v >> 16)`, `byte(v >> 24)`. -/
def littleEndianBytes32 (v : Nat) : List Nat :=
  [v % 256, v / 2 ^ 8 % 256, v / 2 ^ 16 % 256, v / 2 ^ 24 % 256]

/-- The bytes `binary.LittleEndian.PutUint64` stores. -/
def littleEndianBytes64 (v : Nat) : List Nat :=
  [v % 256, v / 2 ^ 8 % 256, v / 2 ^ 16 % 256, v / 2 ^ 24 % 256,
    v / 2 ^ 32 % 256, v / 2 ^ 40 % 256, v / 2 ^ 48 % 256, v / 2 ^ 56 % 256]

/-- A store through the slice `buf[lo:hi]`: its leading bytes are replaced. -/
def store (buf : List Nat) (lo hi : Nat) (bytes : List Nat) : List Nat :=
  buf.take lo ++ bytes ++ (slice buf lo hi).drop bytes.length ++ buf.drop hi

/-- `binary.LittleEndian.PutUint32(buf[lo:hi], v)`. -/
def PutUint32 (buf : List Nat) (lo hi : Nat) (v : Nat) : List Nat :=
  store buf lo hi (littleEndianBytes32 v)

/-- `binary.LittleEndian.PutUint64(buf[lo:hi], v)`. -/
def PutUint64 (buf : List Nat) (lo hi : Nat) (v : Nat) : List Nat :=
  store buf lo hi (littleEndianBytes64 v)

/-- `GeoPoint.Value` (lines 51-59). -/
def GeoPoint.Value (g : GeoPoint) : Except String (List Nat) :=
  let buf := List.replicate 21 0
  let buf := buf.set 0 1
  let buf := PutUint32 buf 1 5 1
  let buf := PutUint64 buf 5 13 (float64OfInt g.Lon)
  let buf := PutUint64 buf 13 21 (float64OfInt g.Lat)
  .ok buf

/-- `GeoPoint.Scan` (lines 15-49): the receiver after the call, or the error. -/
def GeoPoint.Scan (impl : Nat → Int) (g : GeoPoint) (src : Src) : Except String GeoPoint :=
  match src with
  | .nil => .ok g
  | .other typeName => .error ("GeoPoint: cannot scan type " ++ typeName)
  | .bytes b =>
    if b.length < 21 then
      .error ("GeoPoint: invalid WKB POINT length " ++ toString b.length)
    else
      let byteOrder := b.getD 0 0
      let order := if byteOrder = 1 then ByteOrder.LittleEndian else ByteOrder.BigEndian
      let wkbType := order.Uint32 (slice b 1 5)
      if wkbType ≠ 1 then .error "GeoPoint: not a POINT WKB type"
      else
        let x := order.Uint64 (slice b 5 13)
        let y := order.Uint64 (slice b 13 21)
        .ok { g with Lon := intOfFloat64 impl x, Lat := intOfFloat64 impl y }

end Geo

namespace PaymentGateway

/-! ### One step of the loop -/

theorem backOffTries.NextBackOff_lt (delegate : Nat → Option Nat) (b : backOffTries)
    (h : b.numTries < b.maxTries) :
    b.NextBackOff delegate =
      (delegate b.numTries, { maxTries := b.maxTries, numTries := b.numTries + 1 }) := by
  unfold backOffTries.NextBackOff
  have h1 : ¬ b.maxTries = 0 := by omega
  have h2 : ¬ b.maxTries ≤ b.numTries := by omega
  simp [h1, h2]

theorem backOffTries.NextBackOff_ge (delegate : Nat → Option Nat) (b : backOffTries)
    (h : b.maxTries ≤ b.numTries) : b.NextBackOff delegate = (none, b) := by
  unfold backOffTries.NextBackOff
  by_cases h1 : b.maxTries = 0
  · simp [h1]
  · simp [h1, h]

section Loop

variable {ε : Type} (op : Nat → Except ε Unit × List Event)
  (permanent : ε → Option ε) (delegate : Nat → Option Nat) (ctxErr : Nat → Option ε)

theorem retryLoop_ok (b : backOffTries) (attempt : Nat) (trace : List Event) (u : Unit)
    (h : (op attempt).1 = .ok u) :
    retryLoop op permanent delegate ctxErr b attempt trace =
      { err := none, attempts := attempt + 1, trace := trace ++ (op attempt).2 } := by
  rw [retryLoop]
  simp [h]

theorem retryLoop_stop (b : backOffTries) (attempt : Nat) (trace : List Event) (e : ε)
    (h : (op attempt).1 = .error e) (hp : permanent e = none)
    (hc : ctxErr attempt = none) (hs : (b.NextBackOff delegate).1 = none) :
    retryLoop op permanent delegate ctxErr b attempt trace =
      { err := some e, attempts := attempt + 1, trace := trace ++ (op attempt).2 } := by
  rw [retryLoop]
  simp only [h, hp, hc]
  split
  · rfl
  · rename_i d b' hb
    rw [hb] at hs
    simp at hs

theorem retryLoop_next (b b' : backOffTries) (attempt : Nat) (trace : List Event) (e : ε)
    (d : Nat) (h : (op attempt).1 = .error e) (hp : permanent e = none)
    (hc : ctxErr attempt = none) (hs : b.NextBackOff delegate = (some d, b')) :
    retryLoop op permanent delegate ctxErr b attempt trace =
      retryLoop op permanent delegate ctxErr b' (attempt + 1) (trace ++ (op attempt).2) := by
  rw [retryLoop]
  simp only [h, hp, hc]
  split
  · rename_i x hb
    rw [hs] at hb
    simp at hb
  · rename_i d2 b2 hb
    rw [hs] at hb
    simp only [Prod.mk.injEq] at hb
    rw [hb.2]

theorem retryLoop_permanent (b : backOffTries) (attempt : Nat) (trace : List Event)
    (e inner : ε) (h : (op attempt).1 = .error e) (hp : permanent e = some inner) :
    retryLoop op permanent delegate ctxErr b attempt trace =
      { err := some inner, attempts := attempt + 1, trace := trace ++ (op attempt).2 } := by
  rw [retryLoop]
  simp only [h, hp]

/-- The three ways the loop ends at the attempt it is entered with. -/
theorem LoopSpec.of_last (b : backOffTries) (attempt : Nat) (trace : List Event)
    (err : Option ε)
    (hsucc : err = none → ∃ u, (op attempt).1 = .ok u)
    (hfail : ∀ e, err = some e →
      ((op attempt).1 = .error e ∧ permanent e = none ∧
        (b.maxTries ≤ b.numTries ∨ delegate b.numTries = none)) ∨
      (∃ e2, (op attempt).1 = .error e2 ∧ permanent e2 = some e)) :
    LoopSpec op permanent delegate b attempt trace
      { err := err, attempts := attempt + 1, trace := trace ++ (op attempt).2 } := by
  refine ⟨by simp, by simp, ?_, ?_, ?_, ?_⟩
  · intro j h1 h2; simp at h2; omega
  · intro h; simpa using hsucc h
  · intro e h
    simpa using hfail e h
  · simp

theorem retryLoop_spec_ok (b : backOffTries) (attempt : Nat) (trace : List Event)
    (u : Unit) (hop : (op attempt).1 = .ok u) :
    LoopSpec op permanent delegate b attempt trace
      (retryLoop op permanent delegate ctxErr b attempt trace) := by
  rw [retryLoop_ok op permanent delegate ctxErr b attempt trace u hop]
  exact LoopSpec.of_last op permanent delegate b attempt trace none
    (fun _ => ⟨u, hop⟩) (fun e h => by cases h)

theorem retryLoop_spec_permanent (b : backOffTries) (attempt : Nat) (trace : List Event)
    (e inner : ε) (hop : (op attempt).1 = .error e) (hperm : permanent e = some inner) :
    LoopSpec op permanent delegate b attempt trace
      (retryLoop op permanent delegate ctxErr b attempt trace) := by
  rw [retryLoop_permanent op permanent delegate ctxErr b attempt trace e inner hop hperm]
  refine LoopSpec.of_last op permanent delegate b attempt trace (some inner)
    (fun h => by cases h) (fun e2 h => ?_)
  simp only [Option.some.injEq] at h
  subst h
  exact Or.inr ⟨e, hop, hperm⟩

theorem retryLoop_spec (hc : ∀ i, ctxErr i = none) :
    ∀ (n : Nat) (b : backOffTries) (attempt : Nat) (trace : List Event),
      b.maxTries - b.numTries = n →
      LoopSpec op permanent delegate b attempt trace
        (retryLoop op permanent delegate ctxErr b attempt trace) := by
  intro n
  induction n with
  | zero =>
    intro b attempt trace hn
    cases hop : (op attempt).1 with
    | ok u => exact retryLoop_spec_ok op permanent delegate ctxErr b attempt trace u hop
    | error e =>
      cases hperm : permanent e with
      | some inner =>
        exact retryLoop_spec_permanent op permanent delegate ctxErr b attempt trace e inner
          hop hperm
      | none =>
        have hge : b.maxTries ≤ b.numTries := by omega
        rw [retryLoop_stop op permanent delegate ctxErr b attempt trace e hop hperm (hc _)
          (by rw [backOffTries.NextBackOff_ge delegate b hge])]
        refine LoopSpec.of_last op permanent delegate b attempt trace (some e)
          (fun h => by cases h) (fun e2 h => ?_)
        simp only [Option.some.injEq] at h
        subst h
        exact Or.inl ⟨hop, hperm, Or.inl hge⟩
  | succ n ih =>
    intro b attempt trace hn
    cases hop : (op attempt).1 with
    | ok u => exact retryLoop_spec_ok op permanent delegate ctxErr b attempt trace u hop
    | error e =>
      cases hperm : permanent e with
      | some inner =>
        exact retryLoop_spec_permanent op permanent delegate ctxErr b attempt trace e inner
          hop hperm
      | none =>
        have hlt : b.numTries < b.maxTries := by omega
        have hnb := backOffTries.NextBackOff_lt delegate b hlt
        cases hd : delegate b.numTries with
        | none =>
          rw [retryLoop_stop op permanent delegate ctxErr b attempt trace e hop hperm (hc _)
            (by rw [hnb, hd])]
          refine LoopSpec.of_last op permanent delegate b attempt trace (some e)
            (fun h => by cases h) (fun e2 h => ?_)
          simp only [Option.some.injEq] at h
          subst h
          exact Or.inl ⟨hop, hperm, Or.inr hd⟩
        | some d =>
          rw [hd] at hnb
          rw [retryLoop_next op permanent delegate ctxErr b _ attempt trace e d hop hperm
            (hc _) hnb]
          have h := ih { maxTries := b.maxTries, numTries := b.numTries + 1 } (attempt + 1)
            (trace ++ (op attempt).2) (by simp; omega)
          generalize retryLoop op permanent delegate ctxErr
            { maxTries := b.maxTries, numTries := b.numTries + 1 } (attempt + 1)
            (trace ++ (op attempt).2) = res at h
          obtain ⟨h1, h2, h3, h4, h5, h6⟩ := h
          simp only at h2 h3 h5
          refine ⟨by omega, by omega, ?_, h4, ?_, ?_⟩
          · intro j hj1 hj2
            by_cases hj : j = attempt
            · subst hj
              exact ⟨⟨e, hop, hperm⟩, ⟨d, by simpa using hd⟩⟩
            · have := h3 j (by omega) hj2
              have hidx : b.numTries + 1 + (j - (attempt + 1)) =
                  b.numTries + (j - attempt) := by omega
              rw [hidx] at this
              exact this
          · intro e2 he2
            have := h5 e2 he2
            have hidx : b.numTries + 1 + (res.attempts - 1 - (attempt + 1)) =
                b.numTries + (res.attempts - 1 - attempt) := by omega
            rw [hidx] at this
            exact this
          · rw [h6]
            have hlen : res.attempts - attempt = (res.attempts - (attempt + 1)) + 1 := by
              omega
            rw [hlen, List.range'_succ]
            simp

end Loop

/-! ## The two requests -/

theorem postRequest_ok_iff (w : World) (paymentGatewayURL token b : String) (req : Request) :
    postRequest w paymentGatewayURL token b = .ok req ↔
      w.parseURL (paymentGatewayURL ++ "/payments") = none ∧
      req = ((Request.mk "POST" (paymentGatewayURL ++ "/payments") [] b).HeaderSet
        "Content-Type" "application/json").HeaderSet "Authorization" ("Bearer " ++ token) := by
  unfold postRequest NewRequestWithContext
  cases h : w.parseURL (paymentGatewayURL ++ "/payments") with
  | none => simp [eq_comm]
  | some msg => simp

theorem getRequest_ok_iff (w : World) (paymentGatewayURL token : String) (getReq : Request) :
    getRequest w paymentGatewayURL token = .ok getReq ↔
      w.parseURL (paymentGatewayURL ++ "/payments") = none ∧
      getReq = (Request.mk "GET" (paymentGatewayURL ++ "/payments") [] "").HeaderSet
        "Authorization" ("Bearer " ++ token) := by
  unfold getRequest NewRequestWithContext
  cases h : w.parseURL (paymentGatewayURL ++ "/payments") with
  | none => simp [eq_comm]
  | some msg => simp

theorem postRequest_method (w : World) (paymentGatewayURL token b : String) (req : Request)
    (h : postRequest w paymentGatewayURL token b = .ok req) : req.method = "POST" := by
  rw [postRequest_ok_iff] at h
  rw [h.2]
  rfl

theorem getRequest_method (w : World) (paymentGatewayURL token : String) (getReq : Request)
    (h : getRequest w paymentGatewayURL token = .ok getReq) : getReq.method = "GET" := by
  rw [getRequest_ok_iff] at h
  rw [h.2]
  rfl

/-- The GET request can be built exactly when the POST request can: both use
the same URL. -/
theorem getRequest_of_postRequest (w : World) (paymentGatewayURL token b : String)
    (req : Request) (h : postRequest w paymentGatewayURL token b = .ok req) :
    ∃ getReq, getRequest w paymentGatewayURL token = .ok getReq := by
  rw [postRequest_ok_iff] at h
  exact ⟨_, (getRequest_ok_iff w paymentGatewayURL token _).2 ⟨h.1, rfl⟩⟩

theorem postRequest_error (w : World) (paymentGatewayURL token b : String)
    (e : PaymentError) (h : postRequest w paymentGatewayURL token b = .error e) :
    ∃ msg, e = .newRequest msg ∧ w.parseURL (paymentGatewayURL ++ "/payments") = some msg := by
  unfold postRequest NewRequestWithContext at h
  cases hp : w.parseURL (paymentGatewayURL ++ "/payments") with
  | none => simp [hp] at h
  | some msg =>
    simp [hp] at h
    exact ⟨msg, h.symm, rfl⟩

/-! ## The interactions of one attempt -/

/-- The interactions of one execution of the closure, case by case. -/
theorem operation_events {Ride : Type} (w : World) (ctx : Context)
    (paymentGatewayURL token b : String)
    (retrieveRidesOrderByCreatedAtAsc : Nat → Except CallbackError (List Ride)) (i : Nat) :
    ((∃ e, postRequest w paymentGatewayURL token b = .error e) ∧
      (operation w ctx paymentGatewayURL token b retrieveRidesOrderByCreatedAtAsc i).2 = []) ∨
    (∃ req getReq, postRequest w paymentGatewayURL token b = .ok req ∧
      getRequest w paymentGatewayURL token = .ok getReq ∧
      (((operation w ctx paymentGatewayURL token b retrieveRidesOrderByCreatedAtAsc i).2 =
            [.request i req] ∧
          ¬ ∃ res, httpClientDo w (ctx (.post i)) i req = .ok res ∧
            res.StatusCode ≠ StatusNoContent) ∨
        ((operation w ctx paymentGatewayURL token b retrieveRidesOrderByCreatedAtAsc i).2 =
            [.request i req, .request i getReq] ∧
          (∃ res, httpClientDo w (ctx (.post i)) i req = .ok res ∧
            res.StatusCode ≠ StatusNoContent) ∧
          ¬ ∃ getRes payments, httpClientDo w (ctx (.get i)) i getReq = .ok getRes ∧
            getRes.StatusCode = StatusOK ∧ w.decodePayments getRes.Body = .ok payments) ∨
        ((operation w ctx paymentGatewayURL token b retrieveRidesOrderByCreatedAtAsc i).2 =
            [.request i req, .request i getReq, .callback i] ∧
          (∃ res, httpClientDo w (ctx (.post i)) i req = .ok res ∧
            res.StatusCode ≠ StatusNoContent) ∧
          ∃ getRes payments, httpClientDo w (ctx (.get i)) i getReq = .ok getRes ∧
            getRes.StatusCode = StatusOK ∧ w.decodePayments getRes.Body = .ok payments))) := by
  cases hreq : postRequest w paymentGatewayURL token b with
  | error e =>
    left
    exact ⟨⟨e, rfl⟩, by simp [operation, hreq]⟩
  | ok req =>
    right
    obtain ⟨getReq, hgetReq⟩ := getRequest_of_postRequest w paymentGatewayURL token b req hreq
    refine ⟨req, getReq, rfl, hgetReq, ?_⟩
    cases hpost : httpClientDo w (ctx (.post i)) i req with
    | error e =>
      left
      exact ⟨by simp [operation, hreq, hpost], by simp⟩
    | ok res =>
      by_cases hstatus : res.StatusCode = StatusNoContent
      · left
        exact ⟨by simp [operation, hreq, hpost, hstatus], by simp [hstatus]⟩
      · right
        have hG : ∃ res2, Except.ok res = Except.ok (ε := PaymentError) res2 ∧
            res2.StatusCode ≠ StatusNoContent := ⟨res, rfl, hstatus⟩
        cases hget : httpClientDo w (ctx (.get i)) i getReq with
        | error e =>
          left
          exact ⟨by simp [operation, reconcile, hreq, hpost, hstatus, hgetReq, hget], hG,
            by simp⟩
        | ok getRes =>
          by_cases hok : getRes.StatusCode = StatusOK
          · cases hdec : w.decodePayments getRes.Body with
            | error msg =>
              left
              refine ⟨by simp [operation, reconcile, hreq, hpost, hstatus, hgetReq, hget, hok,
                hdec], hG, ?_⟩
              rintro ⟨g, p, h1, _, h3⟩
              simp only [Except.ok.injEq] at h1
              subst h1
              rw [hdec] at h3
              cases h3
            | ok payments =>
              right
              refine ⟨?_, hG, ⟨getRes, payments, rfl, hok, hdec⟩⟩
              cases hr : retrieveRidesOrderByCreatedAtAsc i with
              | error msg =>
                simp [operation, reconcile, hreq, hpost, hstatus, hgetReq, hget, hok, hdec, hr]
              | ok rides =>
                by_cases hlen : rides.length = payments.length
                · simp [operation, reconcile, hreq, hpost, hstatus, hgetReq, hget, hok, hdec,
                    hr, hlen]
                · simp [operation, reconcile, hreq, hpost, hstatus, hgetReq, hget, hok, hdec,
                    hr, hlen]
          · left
            refine ⟨by simp [operation, reconcile, hreq, hpost, hstatus, hgetReq, hget, hok],
              hG, ?_⟩
            rintro ⟨g, p, h1, h2, _⟩
            simp only [Except.ok.injEq] at h1
            subst h1
            exact hok h2

/-- One execution of the closure hands at most one POST to `httpClient.Do`. -/
theorem operation_posts_le_one {Ride : Type} (w : World) (ctx : Context)
    (paymentGatewayURL token b : String)
    (retrieveRidesOrderByCreatedAtAsc : Nat → Except CallbackError (List Ride)) (i : Nat) :
    ((operation w ctx paymentGatewayURL token b retrieveRidesOrderByCreatedAtAsc i).2.countP
      Event.isPost) ≤ 1 := by
  rcases operation_events w ctx paymentGatewayURL token b retrieveRidesOrderByCreatedAtAsc i
    with ⟨_, h⟩ | ⟨req, getReq, hreq, hgetReq, h⟩
  · rw [h]; simp
  · have hm := getRequest_method w paymentGatewayURL token getReq hgetReq
    have hg : Event.isPost (.request i getReq) = false := by
      simp [Event.isPost, hm]
    have hc : Event.isPost (.callback i) = false := rfl
    rcases h with ⟨h, _⟩ | ⟨h, _⟩ | ⟨h, _⟩ <;> rw [h] <;>
      simp [List.countP_cons, hg, hc] <;> split <;> omega

theorem countP_flatten_map_le (p : Event → Bool) (f : Nat → List Event)
    (hf : ∀ j, (f j).countP p ≤ 1) (l : List Nat) :
    ((l.map f).flatten).countP p ≤ l.length := by
  induction l with
  | nil => simp
  | cons a l ih =>
    simp only [List.map_cons, List.flatten_cons, List.countP_append, List.length_cons]
    have := hf a
    omega

theorem httpClientDo_ok (w : World) (done : Bool) (i : Nat) (req : Request)
    (res : Response) (h : httpClientDo w done i req = .ok res) :
    done = false ∧ w.roundTrip i req = .ok res := by
  unfold httpClientDo at h
  cases done with
  | true => simp at h
  | false =>
    cases hr : w.roundTrip i req with
    | error msg => simp [hr] at h
    | ok r =>
      simp [hr] at h
      exact ⟨rfl, by rw [h]⟩

/-- When the closure returns nil, either the POST was answered 204 or the record
list fetched from the gateway is as long as the ride list. -/
theorem operation_ok {Ride : Type} (w : World) (ctx : Context)
    (paymentGatewayURL token b : String)
    (retrieveRidesOrderByCreatedAtAsc : Nat → Except CallbackError (List Ride)) (i : Nat) (u : Unit)
    (h : (operation w ctx paymentGatewayURL token b retrieveRidesOrderByCreatedAtAsc i).1 =
      .ok u) :
    (∃ req res, postRequest w paymentGatewayURL token b = .ok req ∧
      httpClientDo w (ctx (.post i)) i req = .ok res ∧
      res.StatusCode = StatusNoContent) ∨
    (∃ payments rides, gatewayRecords w paymentGatewayURL token i = some payments ∧
      retrieveRidesOrderByCreatedAtAsc i = .ok rides ∧
      rides.length = payments.length) := by
  cases hreq : postRequest w paymentGatewayURL token b with
  | error e => simp [operation, hreq] at h
  | ok req =>
    cases hpost : httpClientDo w (ctx (.post i)) i req with
    | error e => simp [operation, hreq, hpost] at h
    | ok res =>
      by_cases hstatus : res.StatusCode = StatusNoContent
      · exact Or.inl ⟨req, res, rfl, hpost, hstatus⟩
      · right
        cases hgetReq : getRequest w paymentGatewayURL token with
        | error e => simp [operation, reconcile, hreq, hpost, hstatus, hgetReq] at h
        | ok getReq =>
          cases hget : httpClientDo w (ctx (.get i)) i getReq with
          | error e => simp [operation, reconcile, hreq, hpost, hstatus, hgetReq, hget] at h
          | ok getRes =>
            by_cases hok : getRes.StatusCode = StatusOK
            · cases hdec : w.decodePayments getRes.Body with
              | error msg =>
                simp [operation, reconcile, hreq, hpost, hstatus, hgetReq, hget, hok, hdec] at h
              | ok payments =>
                cases hr : retrieveRidesOrderByCreatedAtAsc i with
                | error msg =>
                  simp [operation, reconcile, hreq, hpost, hstatus, hgetReq, hget, hok, hdec,
                    hr] at h
                | ok rides =>
                  by_cases hlen : rides.length = payments.length
                  · refine ⟨payments, rides, ?_, rfl, hlen⟩
                    have hrt := (httpClientDo_ok w _ i getReq getRes hget).2
                    simp [gatewayRecords, hgetReq, hrt, hok, hdec]
                  · simp [operation, reconcile, hreq, hpost, hstatus, hgetReq, hget, hok, hdec,
                      hr, hlen] at h
            · simp [operation, reconcile, hreq, hpost, hstatus, hgetReq, hget, hok] at h

/-- Once the context is cancelled during a back-off sleep, it is done whenever a
later attempt hands its POST to `httpClient.Do`. -/
theorem Context.done_after_sleep (ctx : Context) (hmono : ctx.Monotone) (k : Nat)
    (hk : ctx (.sleep k) = true) : ∀ j, k < j → ctx (.post j) = true := by
  obtain ⟨h1, h2, h3⟩ := hmono
  intro j hj
  induction j with
  | zero => omega
  | succ n ih =>
    by_cases hn : k = n
    · subst hn; exact h3 _ hk
    · exact h3 _ (h2 _ (h1 _ (ih (by omega))))

/-- An attempt started under a cancelled context fails before any GET. -/
theorem operation_cancelled {Ride : Type} (w : World) (ctx : Context)
    (paymentGatewayURL token b : String)
    (retrieveRidesOrderByCreatedAtAsc : Nat → Except CallbackError (List Ride)) (j : Nat)
    (hdone : ctx (.post j) = true) :
    (∃ msg, operation w ctx paymentGatewayURL token b retrieveRidesOrderByCreatedAtAsc j =
      (.error (.newRequest msg), [])) ∨
    (∃ req, postRequest w paymentGatewayURL token b = .ok req ∧
      operation w ctx paymentGatewayURL token b retrieveRidesOrderByCreatedAtAsc j =
        (.error (.transport "context canceled"), [.request j req])) := by
  cases hreq : postRequest w paymentGatewayURL token b with
  | error e =>
    obtain ⟨msg, hm, _⟩ := postRequest_error w paymentGatewayURL token b e hreq
    left
    exact ⟨msg, by simp [operation, hreq, hm]⟩
  | ok req =>
    right
    exact ⟨req, rfl, by simp [operation, hreq, httpClientDo, hdone]⟩

/-! ## General facts about the call -/

section Call

variable {Ride : Type} (w : World) (ctx : Context) (paymentGatewayURL token : String)
  (param : Option paymentGatewayPostPaymentRequest)
  (retrieveRidesOrderByCreatedAtAsc : Nat → Except CallbackError (List Ride))

theorem call_spec :
    LoopSpec (operation w ctx paymentGatewayURL token (jsonMarshal param)
        retrieveRidesOrderByCreatedAtAsc) asPermanent w.nextInterval
      { maxTries := 5, numTries := 0 } 0 []
      (requestPaymentGatewayPostPayment w ctx paymentGatewayURL token param
        retrieveRidesOrderByCreatedAtAsc) := by
  unfold requestPaymentGatewayPostPayment Retry WithMaxRetries backOffTries.Reset
  exact retryLoop_spec _ asPermanent w.nextInterval backgroundErr (fun _ => rfl) 5 _ 0 [] rfl

/-- An attempt that succeeds is the last one of the call, and the call succeeds. -/
theorem call_stops_at_success (i : Nat) (u : Unit)
    (hok : (operation w ctx paymentGatewayURL token (jsonMarshal param)
      retrieveRidesOrderByCreatedAtAsc i).1 = .ok u)
    (hi : i < (requestPaymentGatewayPostPayment w ctx paymentGatewayURL token param
      retrieveRidesOrderByCreatedAtAsc).attempts) :
    (requestPaymentGatewayPostPayment w ctx paymentGatewayURL token param
        retrieveRidesOrderByCreatedAtAsc).err = none ∧
      (requestPaymentGatewayPostPayment w ctx paymentGatewayURL token param
        retrieveRidesOrderByCreatedAtAsc).attempts = i + 1 := by
  have hs := call_spec w ctx paymentGatewayURL token param retrieveRidesOrderByCreatedAtAsc
  generalize requestPaymentGatewayPostPayment w ctx paymentGatewayURL token param
    retrieveRidesOrderByCreatedAtAsc = r at hs hi
  have hatt : r.attempts = i + 1 := by
    by_contra hne
    obtain ⟨⟨e, he, _⟩, _⟩ := hs.earlier i (Nat.zero_le _) (by omega)
    rw [hok] at he
    cases he
  refine ⟨?_, hatt⟩
  cases herr : r.err with
  | none => rfl
  | some e =>
    have hf := hs.failure e herr
    rw [hatt] at hf
    simp only [Nat.add_sub_cancel] at hf
    rw [hok] at hf
    rcases hf with ⟨h, _⟩ | ⟨e2, h, _⟩ <;> cases h

/-- When every attempt fails with an error that is not permanent, the call
returns the error of the last attempt it made, after the retries ran out or the
back-off stopped. -/
theorem call_returns_last_error
    (hfail : ∀ i, ∃ e, (operation w ctx paymentGatewayURL token (jsonMarshal param)
      retrieveRidesOrderByCreatedAtAsc i).1 = .error e ∧ asPermanent e = none) :
    ∃ e, (requestPaymentGatewayPostPayment w ctx paymentGatewayURL token param
        retrieveRidesOrderByCreatedAtAsc).err = some e ∧
      (operation w ctx paymentGatewayURL token (jsonMarshal param)
        retrieveRidesOrderByCreatedAtAsc
        ((requestPaymentGatewayPostPayment w ctx paymentGatewayURL token param
          retrieveRidesOrderByCreatedAtAsc).attempts - 1)).1 = .error e ∧
      ((requestPaymentGatewayPostPayment w ctx paymentGatewayURL token param
          retrieveRidesOrderByCreatedAtAsc).attempts = 6 ∨
        w.nextInterval ((requestPaymentGatewayPostPayment w ctx paymentGatewayURL token param
          retrieveRidesOrderByCreatedAtAsc).attempts - 1) = none) := by
  have hs := call_spec w ctx paymentGatewayURL token param retrieveRidesOrderByCreatedAtAsc
  generalize requestPaymentGatewayPostPayment w ctx paymentGatewayURL token param
    retrieveRidesOrderByCreatedAtAsc = r at hs
  obtain ⟨e0, he0, hp0⟩ := hfail (r.attempts - 1)
  cases herr : r.err with
  | none =>
    obtain ⟨u, hu⟩ := hs.success herr
    rw [hu] at he0
    cases he0
  | some e =>
    rcases hs.failure e herr with ⟨h1, _, h2⟩ | ⟨e2, h1, h2⟩
    · refine ⟨e, rfl, h1, ?_⟩
      have hup := hs.upper
      have hlo := hs.lower
      simp only [Nat.sub_zero, Nat.zero_add] at h2 hup
      rcases h2 with h2 | h2
      · left; omega
      · right; exact h2
    · rw [he0] at h1
      simp only [Except.error.injEq] at h1
      subst h1
      rw [hp0] at h2
      cases h2

/-- While the attempts fail with errors that are not permanent, the retries are
not used up and the back-off hands out an interval, the call goes on to the
next attempt. -/
theorem call_reaches (k : Nat) (hk : k < 5)
    (hfail : ∀ j, j ≤ k → ∃ e, (operation w ctx paymentGatewayURL token (jsonMarshal param)
      retrieveRidesOrderByCreatedAtAsc j).1 = .error e ∧ asPermanent e = none)
    (hnext : ∀ j, j ≤ k → ∃ d, w.nextInterval j = some d) :
    k + 2 ≤ (requestPaymentGatewayPostPayment w ctx paymentGatewayURL token param
      retrieveRidesOrderByCreatedAtAsc).attempts := by
  have hs := call_spec w ctx paymentGatewayURL token param retrieveRidesOrderByCreatedAtAsc
  generalize requestPaymentGatewayPostPayment w ctx paymentGatewayURL token param
    retrieveRidesOrderByCreatedAtAsc = r at hs
  by_contra hlt
  have hlo := hs.lower
  have hlast : r.attempts - 1 ≤ k := by omega
  obtain ⟨e, he, hp⟩ := hfail _ hlast
  cases herr : r.err with
  | none =>
    obtain ⟨u, hu⟩ := hs.success herr
    rw [hu] at he
    cases he
  | some e2 =>
    rcases hs.failure e2 herr with ⟨_, _, h2⟩ | ⟨e3, h1, h2⟩
    · simp only [Nat.sub_zero, Nat.zero_add] at h2
      rcases h2 with h2 | h2
      · omega
      · obtain ⟨d, hd⟩ := hnext _ hlast
        rw [hd] at h2
        cases h2
    · rw [he] at h1
      simp only [Except.error.injEq] at h1
      subst h1
      rw [hp] at h2
      cases h2

end Call

/-! ## The claims about the payment submitter -/

section Claims

variable {Ride : Type}

/-- C1: whatever the amount, the gateway URL and the token, if the first POST gets
a response with status 204 the call returns nil after exactly one attempt, and
the only interaction of the whole call is that POST: no GET is issued and the
callback is not invoked. -/
theorem first_post_no_content_succeeds (w : World) (ctx : Context)
    (paymentGatewayURL token : String) (param : Option paymentGatewayPostPaymentRequest)
    (retrieveRidesOrderByCreatedAtAsc : Nat → Except CallbackError (List Ride))
    (req : Request) (res : Response)
    (hreq : postRequest w paymentGatewayURL token (jsonMarshal param) = .ok req)
    (hpost : httpClientDo w (ctx (.post 0)) 0 req = .ok res)
    (hstatus : res.StatusCode = StatusNoContent) :
    requestPaymentGatewayPostPayment w ctx paymentGatewayURL token param
        retrieveRidesOrderByCreatedAtAsc =
      { err := none, attempts := 1, trace := [.request 0 req] } ∧
    req.method = "POST" := by
  have hop : operation w ctx paymentGatewayURL token (jsonMarshal param)
      retrieveRidesOrderByCreatedAtAsc 0 = (.ok (), [.request 0 req]) := by
    simp [operation, hreq, hpost, hstatus]
  constructor
  · unfold requestPaymentGatewayPostPayment Retry
    rw [retryLoop_ok _ _ _ _ _ _ _ () (by rw [hop])]
    simp [hop]
  · exact postRequest_method w paymentGatewayURL token (jsonMarshal param) req hreq

/-- Witness for C1: amount 500, POST answered 204. -/
theorem first_post_no_content_succeeds_witness :
    (requestPaymentGatewayPostPayment gatewayAccepting liveContext "http://gw" "t"
        (some ⟨500⟩) threeRides =
      { err := none, attempts := 1, trace := [.request 0 (samplePost 500)] }) ∧
    (samplePost 500).method = "POST" :=
  first_post_no_content_succeeds gatewayAccepting liveContext "http://gw" "t"
    (some ⟨500⟩) threeRides (samplePost 500) ⟨204, ""⟩ rfl rfl rfl

/-- C2: in an attempt whose POST gets a response with a status other than 204,
whose GET returns 200 with a body that decodes to a payment list, and whose
callback returns a ride list of the same length, the closure returns nil after
POST, GET and one callback invocation; the call then returns nil and that
attempt is its last one. -/
theorem equal_counts_attempt_succeeds (w : World) (ctx : Context)
    (paymentGatewayURL token : String) (param : Option paymentGatewayPostPaymentRequest)
    (retrieveRidesOrderByCreatedAtAsc : Nat → Except CallbackError (List Ride))
    (i : Nat) (req getReq : Request) (res getRes : Response)
    (payments : List paymentGatewayGetPaymentsResponseOne) (rides : List Ride)
    (hreq : postRequest w paymentGatewayURL token (jsonMarshal param) = .ok req)
    (hpost : httpClientDo w (ctx (.post i)) i req = .ok res)
    (hstatus : res.StatusCode ≠ StatusNoContent)
    (hgetReq : getRequest w paymentGatewayURL token = .ok getReq)
    (hget : httpClientDo w (ctx (.get i)) i getReq = .ok getRes)
    (hok : getRes.StatusCode = StatusOK)
    (hdecode : w.decodePayments getRes.Body = .ok payments)
    (hrides : retrieveRidesOrderByCreatedAtAsc i = .ok rides)
    (hlen : rides.length = payments.length) :
    operation w ctx paymentGatewayURL token (jsonMarshal param)
        retrieveRidesOrderByCreatedAtAsc i =
      (.ok (), [.request i req, .request i getReq, .callback i]) ∧
    (i < (requestPaymentGatewayPostPayment w ctx paymentGatewayURL token param
        retrieveRidesOrderByCreatedAtAsc).attempts →
      (requestPaymentGatewayPostPayment w ctx paymentGatewayURL token param
        retrieveRidesOrderByCreatedAtAsc).err = none ∧
      (requestPaymentGatewayPostPayment w ctx paymentGatewayURL token param
        retrieveRidesOrderByCreatedAtAsc).attempts = i + 1) := by
  have hop : operation w ctx paymentGatewayURL token (jsonMarshal param)
      retrieveRidesOrderByCreatedAtAsc i =
      (.ok (), [.request i req, .request i getReq, .callback i]) := by
    simp [operation, reconcile, hreq, hpost, hstatus, hgetReq, hget, hok, hdecode, hrides,
      hlen]
  refine ⟨hop, fun hi => ?_⟩
  exact call_stops_at_success w ctx paymentGatewayURL token param
    retrieveRidesOrderByCreatedAtAsc i () (by rw [hop]) hi

/-- Witness for C2: POST 500, GET 200 with three records, three rides: the call
returns nil after one attempt. -/
theorem equal_counts_attempt_succeeds_witness :
    operation gatewayAmbiguous liveContext "http://gw" "t" (jsonMarshal (some ⟨600⟩))
        threeRides 0 =
      (.ok (), [.request 0 (samplePost 600), .request 0 sampleGet, .callback 0]) ∧
    (requestPaymentGatewayPostPayment gatewayAmbiguous liveContext "http://gw" "t"
        (some ⟨600⟩) threeRides).err = none ∧
    (requestPaymentGatewayPostPayment gatewayAmbiguous liveContext "http://gw" "t"
        (some ⟨600⟩) threeRides).attempts = 0 + 1 :=
  have h := equal_counts_attempt_succeeds gatewayAmbiguous liveContext "http://gw" "t"
    (some ⟨600⟩) threeRides 0 (samplePost 600) sampleGet ⟨500, ""⟩ ⟨200, "[three records]"⟩
    threeRecords ["ride-1", "ride-2", "ride-3"] rfl rfl (by decide) rfl rfl rfl rfl rfl rfl
  ⟨h.1, h.2 (call_spec gatewayAmbiguous liveContext "http://gw" "t" (some ⟨600⟩)
    threeRides).lower⟩

/-- C3: in an attempt whose POST gets a non-204 response, whose GET returns 200
with a payment list of length p and whose callback returns r rides, r different
from p, the closure returns the count-mismatch error carrying r first and p
second (it wraps erroredUpstream and prints both numbers); it does not return
nil. -/
theorem different_counts_attempt_fails (w : World) (ctx : Context)
    (paymentGatewayURL token b : String)
    (retrieveRidesOrderByCreatedAtAsc : Nat → Except CallbackError (List Ride))
    (i : Nat) (req getReq : Request) (res getRes : Response)
    (payments : List paymentGatewayGetPaymentsResponseOne) (rides : List Ride)
    (hreq : postRequest w paymentGatewayURL token b = .ok req)
    (hpost : httpClientDo w (ctx (.post i)) i req = .ok res)
    (hstatus : res.StatusCode ≠ StatusNoContent)
    (hgetReq : getRequest w paymentGatewayURL token = .ok getReq)
    (hget : httpClientDo w (ctx (.get i)) i getReq = .ok getRes)
    (hok : getRes.StatusCode = StatusOK)
    (hdecode : w.decodePayments getRes.Body = .ok payments)
    (hrides : retrieveRidesOrderByCreatedAtAsc i = .ok rides)
    (hlen : rides.length ≠ payments.length) :
    (operation w ctx paymentGatewayURL token b retrieveRidesOrderByCreatedAtAsc i).1 =
      .error (.unexpectedCount rides.length payments.length) ∧
    (PaymentError.unexpectedCount rides.length payments.length).wrapsErroredUpstream = true ∧
    (PaymentError.unexpectedCount rides.length payments.length).Error =
      "unexpected number of payments: " ++ toString rides.length ++ " != " ++
        toString payments.length ++ ". " ++ erroredUpstream ∧
    (operation w ctx paymentGatewayURL token b retrieveRidesOrderByCreatedAtAsc i).1 ≠
      .ok () := by
  have hop : (operation w ctx paymentGatewayURL token b
      retrieveRidesOrderByCreatedAtAsc i).1 =
      .error (.unexpectedCount rides.length payments.length) := by
    simp [operation, reconcile, hreq, hpost, hstatus, hgetReq, hget, hok, hdecode, hrides,
      hlen]
  refine ⟨hop, rfl, rfl, ?_⟩
  rw [hop]
  simp

/-- Witness for C3: three rides against two payment records. -/
theorem different_counts_attempt_fails_witness :
    (operation { gatewayAmbiguous with decodePayments := fun _ => .ok (threeRecords.take 2) }
        liveContext "http://gw" "t" (jsonMarshal (some ⟨600⟩)) threeRides 0).1 =
      .error (.unexpectedCount 3 2) ∧
    (PaymentError.unexpectedCount 3 2).wrapsErroredUpstream = true ∧
    (PaymentError.unexpectedCount 3 2).Error =
      "unexpected number of payments: " ++ toString 3 ++ " != " ++
        toString 2 ++ ". " ++ erroredUpstream ∧
    (operation { gatewayAmbiguous with decodePayments := fun _ => .ok (threeRecords.take 2) }
        liveContext "http://gw" "t" (jsonMarshal (some ⟨600⟩)) threeRides 0).1 ≠ .ok () :=
  different_counts_attempt_fails
    { gatewayAmbiguous with decodePayments := fun _ => .ok (threeRecords.take 2) }
    liveContext "http://gw" "t" (jsonMarshal (some ⟨600⟩)) threeRides 0
    (samplePost 600) sampleGet ⟨500, ""⟩ ⟨200, "[three records]"⟩ (threeRecords.take 2)
    ["ride-1", "ride-2", "ride-3"] rfl rfl (by decide) rfl rfl rfl rfl rfl (by decide)

/-- C4: in an attempt whose POST gets a non-204 response and whose GET gets a
response with a status other than 200, the closure returns the unexpected-status
error after POST and GET only; the error is of another kind than the mismatch,
decode and callback errors and, unlike the mismatch error, does not wrap
erroredUpstream; the outcome depends neither on the decoder nor
on the callback (neither is consulted). If every attempt behaves this way, the
call returns such an error once the retries are used up or the back-off stops,
and the callback is never invoked. -/
theorem get_not_ok_attempt_fails (w : World) (ctx : Context)
    (paymentGatewayURL token : String) (param : Option paymentGatewayPostPaymentRequest)
    (retrieveRidesOrderByCreatedAtAsc : Nat → Except CallbackError (List Ride))
    (i : Nat) (req getReq : Request) (res getRes : Response)
    (hreq : postRequest w paymentGatewayURL token (jsonMarshal param) = .ok req)
    (hpost : httpClientDo w (ctx (.post i)) i req = .ok res)
    (hstatus : res.StatusCode ≠ StatusNoContent)
    (hgetReq : getRequest w paymentGatewayURL token = .ok getReq)
    (hget : httpClientDo w (ctx (.get i)) i getReq = .ok getRes)
    (hnot : getRes.StatusCode ≠ StatusOK) :
    (∀ (decoder : String → Except String (List paymentGatewayGetPaymentsResponseOne))
        (callback : Nat → Except CallbackError (List Ride)),
      operation { w with decodePayments := decoder } ctx paymentGatewayURL token
          (jsonMarshal param) callback i =
        (.error (.unexpectedStatus getRes.StatusCode),
          [.request i req, .request i getReq])) ∧
    (PaymentError.unexpectedStatus getRes.StatusCode).wrapsErroredUpstream = false ∧
    (∀ r p, PaymentError.unexpectedStatus getRes.StatusCode ≠ .unexpectedCount r p) ∧
    (∀ msg, PaymentError.unexpectedStatus getRes.StatusCode ≠ .decode msg) ∧
    (∀ msg, PaymentError.unexpectedStatus getRes.StatusCode ≠ .retrieve msg) ∧
    ((∀ j, ∃ resj getResj, httpClientDo w (ctx (.post j)) j req = .ok resj ∧
          resj.StatusCode ≠ StatusNoContent ∧
          httpClientDo w (ctx (.get j)) j getReq = .ok getResj ∧
          getResj.StatusCode ≠ StatusOK) →
      ∃ code, code ≠ StatusOK ∧
        (requestPaymentGatewayPostPayment w ctx paymentGatewayURL token param
          retrieveRidesOrderByCreatedAtAsc).err = some (.unexpectedStatus code) ∧
        ((requestPaymentGatewayPostPayment w ctx paymentGatewayURL token param
            retrieveRidesOrderByCreatedAtAsc).attempts = 6 ∨
          w.nextInterval ((requestPaymentGatewayPostPayment w ctx paymentGatewayURL token
            param retrieveRidesOrderByCreatedAtAsc).attempts - 1) = none) ∧
        ∀ j, Event.callback j ∉
          (requestPaymentGatewayPostPayment w ctx paymentGatewayURL token param
            retrieveRidesOrderByCreatedAtAsc).trace) := by
  refine ⟨?_, rfl, fun _ _ h => (by cases h), fun _ h => (by cases h),
    fun _ h => (by cases h), ?_⟩
  · intro decoder callback
    have hreq2 : postRequest { w with decodePayments := decoder } paymentGatewayURL token
        (jsonMarshal param) = .ok req := hreq
    have hgetReq2 : getRequest { w with decodePayments := decoder } paymentGatewayURL token =
        .ok getReq := hgetReq
    have hpost2 : httpClientDo { w with decodePayments := decoder } (ctx (.post i)) i req =
        .ok res := hpost
    have hget2 : httpClientDo { w with decodePayments := decoder } (ctx (.get i)) i getReq =
        .ok getRes := hget
    simp [operation, reconcile, hreq2, hpost2, hstatus, hgetReq2, hget2, hnot]
  · intro hall
    have hop : ∀ j, ∃ code, code ≠ StatusOK ∧
        operation w ctx paymentGatewayURL token (jsonMarshal param)
          retrieveRidesOrderByCreatedAtAsc j =
        (.error (.unexpectedStatus code), [.request j req, .request j getReq]) := by
      intro j
      obtain ⟨resj, getResj, h1, h2, h3, h4⟩ := hall j
      exact ⟨getResj.StatusCode, h4, by
        simp [operation, reconcile, hreq, h1, h2, hgetReq, h3, h4]⟩
    obtain ⟨e, he1, he2, he3⟩ := call_returns_last_error w ctx paymentGatewayURL token param
      retrieveRidesOrderByCreatedAtAsc (fun j => by
        obtain ⟨code, _, hc⟩ := hop j
        exact ⟨.unexpectedStatus code, by rw [hc], rfl⟩)
    have hs := call_spec w ctx paymentGatewayURL token param retrieveRidesOrderByCreatedAtAsc
    generalize requestPaymentGatewayPostPayment w ctx paymentGatewayURL token param
      retrieveRidesOrderByCreatedAtAsc = r at hs he1 he2 he3
    obtain ⟨code, hcode, hc⟩ := hop (r.attempts - 1)
    rw [hc] at he2
    simp only [Except.error.injEq] at he2
    refine ⟨code, hcode, by rw [he1, he2], he3, ?_⟩
    intro j hj
    rw [hs.events] at hj
    simp only [List.nil_append, List.mem_flatten, List.mem_map] at hj
    obtain ⟨l, ⟨k, _, hk⟩, hl⟩ := hj
    obtain ⟨c, _, hck⟩ := hop k
    rw [hck] at hk
    subst hk
    simp at hl

/-- Witness for C4: POST answered 500, GET answered 503, on every attempt. -/
theorem get_not_ok_attempt_fails_witness :
    ∃ code, code ≠ StatusOK ∧
      (requestPaymentGatewayPostPayment gatewayBroken liveContext "http://gw" "t"
        (some ⟨600⟩) threeRides).err = some (.unexpectedStatus code) ∧
      ((requestPaymentGatewayPostPayment gatewayBroken liveContext "http://gw" "t"
          (some ⟨600⟩) threeRides).attempts = 6 ∨
        gatewayBroken.nextInterval ((requestPaymentGatewayPostPayment gatewayBroken
          liveContext "http://gw" "t" (some ⟨600⟩) threeRides).attempts - 1) = none) ∧
      ∀ j, Event.callback j ∉
        (requestPaymentGatewayPostPayment gatewayBroken liveContext "http://gw" "t"
          (some ⟨600⟩) threeRides).trace :=
  (get_not_ok_attempt_fails gatewayBroken liveContext "http://gw" "t" (some ⟨600⟩)
    threeRides 0 (samplePost 600) sampleGet ⟨500, ""⟩ ⟨503, ""⟩ rfl rfl (by decide) rfl rfl
    (by decide)).2.2.2.2.2
    (fun _ => ⟨⟨500, ""⟩, ⟨503, ""⟩, rfl, by decide, rfl, by decide⟩)

/-- C5, amended: whatever the gateway and the callback do, one call runs the
closure at most 6 times, the first attempt and at most 5 retries, and hands at
most 6 POSTs to the HTTP client. -/
theorem at_most_six_attempts (w : World) (ctx : Context)
    (paymentGatewayURL token : String) (param : Option paymentGatewayPostPaymentRequest)
    (retrieveRidesOrderByCreatedAtAsc : Nat → Except CallbackError (List Ride)) :
    (requestPaymentGatewayPostPayment w ctx paymentGatewayURL token param
        retrieveRidesOrderByCreatedAtAsc).attempts ≤ 6 ∧
    (requestPaymentGatewayPostPayment w ctx paymentGatewayURL token param
        retrieveRidesOrderByCreatedAtAsc).trace.countP Event.isPost ≤ 6 := by
  have hs := call_spec w ctx paymentGatewayURL token param retrieveRidesOrderByCreatedAtAsc
  generalize requestPaymentGatewayPostPayment w ctx paymentGatewayURL token param
    retrieveRidesOrderByCreatedAtAsc = r at hs
  have hup := hs.upper
  simp only [Nat.sub_zero, Nat.zero_add] at hup
  refine ⟨hup, ?_⟩
  rw [hs.events]
  simp only [List.nil_append]
  have := countP_flatten_map_le Event.isPost
    (fun j => (operation w ctx paymentGatewayURL token (jsonMarshal param)
      retrieveRidesOrderByCreatedAtAsc j).2)
    (fun j => operation_posts_le_one w ctx paymentGatewayURL token (jsonMarshal param)
      retrieveRidesOrderByCreatedAtAsc j)
    (List.range' 0 (r.attempts - 0))
  simp only [List.length_range'] at this
  omega

/-- C5, counterexample: against a gateway that refuses every connection the
closure runs 6 times and 6 POSTs are handed to the HTTP client: more than 5. -/
theorem six_attempts_when_gateway_down :
    (requestPaymentGatewayPostPayment gatewayDown liveContext "http://gw" "t"
        (some ⟨600⟩) threeRides).attempts = 6 ∧
    (requestPaymentGatewayPostPayment gatewayDown liveContext "http://gw" "t"
        (some ⟨600⟩) threeRides).trace.countP Event.isPost = 6 ∧
    ¬ (requestPaymentGatewayPostPayment gatewayDown liveContext "http://gw" "t"
        (some ⟨600⟩) threeRides).attempts ≤ 5 := by
  have hs := call_spec gatewayDown liveContext "http://gw" "t" (some ⟨600⟩) threeRides
  have hreach := call_reaches gatewayDown liveContext "http://gw" "t" (some ⟨600⟩)
    threeRides 4 (by decide) (fun _ _ => ⟨_, rfl, rfl⟩) (fun _ _ => ⟨50, rfl⟩)
  generalize requestPaymentGatewayPostPayment gatewayDown liveContext "http://gw" "t"
    (some ⟨600⟩) threeRides = r at hs hreach
  have hup := hs.upper
  simp only [Nat.sub_zero, Nat.zero_add] at hup
  have hatt : r.attempts = 6 := by omega
  refine ⟨hatt, ?_, by omega⟩
  rw [hs.events, hatt]
  have hop : ∀ j, (operation gatewayDown liveContext "http://gw" "t"
      (jsonMarshal (some ⟨600⟩)) threeRides j).2 = [.request j (samplePost 600)] :=
    fun _ => rfl
  simp only [hop]
  decide

/-- C6, amended: when every attempt fails, the call returns an error, and all
attempts before the last failed with an error that is not permanent. If the
error of the last attempt is not permanent either, the call returns exactly that
error value, once the retries are used up or the back-off stops; so when every
attempt fails in the HTTP client at the POST, the returned error is that
transport error of the last attempt. If the error of the last attempt is
permanent, which only an error of the callback can be, the call stops at that
attempt and returns the inner error of the permanent error. -/
theorem failed_call_returns_last_error_or_inner (w : World) (ctx : Context)
    (paymentGatewayURL token : String) (param : Option paymentGatewayPostPaymentRequest)
    (retrieveRidesOrderByCreatedAtAsc : Nat → Except CallbackError (List Ride))
    (hfail : ∀ i, ∃ e, (operation w ctx paymentGatewayURL token (jsonMarshal param)
      retrieveRidesOrderByCreatedAtAsc i).1 = .error e) :
    ∃ last, (operation w ctx paymentGatewayURL token (jsonMarshal param)
        retrieveRidesOrderByCreatedAtAsc
        ((requestPaymentGatewayPostPayment w ctx paymentGatewayURL token param
          retrieveRidesOrderByCreatedAtAsc).attempts - 1)).1 = .error last ∧
      (∀ j, j + 1 < (requestPaymentGatewayPostPayment w ctx paymentGatewayURL token param
          retrieveRidesOrderByCreatedAtAsc).attempts →
        ∃ e, (operation w ctx paymentGatewayURL token (jsonMarshal param)
          retrieveRidesOrderByCreatedAtAsc j).1 = .error e ∧ asPermanent e = none) ∧
      ((asPermanent last = none ∧
          (requestPaymentGatewayPostPayment w ctx paymentGatewayURL token param
            retrieveRidesOrderByCreatedAtAsc).err = some last ∧
          ((requestPaymentGatewayPostPayment w ctx paymentGatewayURL token param
              retrieveRidesOrderByCreatedAtAsc).attempts = 6 ∨
            w.nextInterval ((requestPaymentGatewayPostPayment w ctx paymentGatewayURL token
              param retrieveRidesOrderByCreatedAtAsc).attempts - 1) = none)) ∨
        (∃ cause inner, last = .retrieve cause ∧ cause.asPermanent = some inner ∧
          (requestPaymentGatewayPostPayment w ctx paymentGatewayURL token param
            retrieveRidesOrderByCreatedAtAsc).err = some (.retrieve inner))) ∧
      ((∀ i, ∃ msg, (operation w ctx paymentGatewayURL token (jsonMarshal param)
          retrieveRidesOrderByCreatedAtAsc i).1 = .error (.transport msg)) →
        ∃ msg, last = .transport msg ∧
          (requestPaymentGatewayPostPayment w ctx paymentGatewayURL token param
            retrieveRidesOrderByCreatedAtAsc).err = some (.transport msg) ∧
          ((requestPaymentGatewayPostPayment w ctx paymentGatewayURL token param
              retrieveRidesOrderByCreatedAtAsc).attempts = 6 ∨
            w.nextInterval ((requestPaymentGatewayPostPayment w ctx paymentGatewayURL token
              param retrieveRidesOrderByCreatedAtAsc).attempts - 1) = none)) := by
  have hs := call_spec w ctx paymentGatewayURL token param retrieveRidesOrderByCreatedAtAsc
  generalize requestPaymentGatewayPostPayment w ctx paymentGatewayURL token param
    retrieveRidesOrderByCreatedAtAsc = r at hs
  obtain ⟨last, hlast⟩ := hfail (r.attempts - 1)
  have hmain : (asPermanent last = none ∧ r.err = some last ∧
        (r.attempts = 6 ∨ w.nextInterval (r.attempts - 1) = none)) ∨
      (∃ cause inner, last = .retrieve cause ∧ cause.asPermanent = some inner ∧
        r.err = some (.retrieve inner)) := by
    cases herr : r.err with
    | none =>
      obtain ⟨u, hu⟩ := hs.success herr
      rw [hu] at hlast
      cases hlast
    | some e =>
      rcases hs.failure e herr with ⟨h1, hp, h2⟩ | ⟨e2, h1, h2⟩
      · rw [hlast] at h1
        simp only [Except.error.injEq] at h1
        subst h1
        refine Or.inl ⟨hp, rfl, ?_⟩
        have hup := hs.upper
        have hlo := hs.lower
        simp only [Nat.sub_zero, Nat.zero_add] at h2 hup
        rcases h2 with h2 | h2
        · left; omega
        · right; exact h2
      · rw [hlast] at h1
        simp only [Except.error.injEq] at h1
        subst h1
        right
        cases last with
        | retrieve cause =>
          cases hc : cause.asPermanent with
          | none => simp [asPermanent, hc] at h2
          | some inner =>
            simp only [asPermanent, hc, Option.map_some', Option.some.injEq] at h2
            exact ⟨cause, inner, rfl, hc, by rw [h2]⟩
        | newRequest msg => simp [asPermanent] at h2
        | transport msg => simp [asPermanent] at h2
        | unexpectedStatus code => simp [asPermanent] at h2
        | decode msg => simp [asPermanent] at h2
        | unexpectedCount a b => simp [asPermanent] at h2
  refine ⟨last, hlast, fun j hj => (hs.earlier j (Nat.zero_le _) hj).1, hmain, fun ht => ?_⟩
  obtain ⟨msg, hmsg⟩ := ht (r.attempts - 1)
  rw [hmsg] at hlast
  simp only [Except.error.injEq] at hlast
  subst hlast
  rcases hmain with ⟨_, h1, h2⟩ | ⟨cause, inner, h1, _⟩
  · exact ⟨msg, rfl, h1, h2⟩
  · cases h1

/-- Witness for C6, amended: every connection to the gateway is refused. -/
theorem failed_call_returns_last_error_or_inner_witness :
    ∃ msg, (requestPaymentGatewayPostPayment gatewayDown liveContext "http://gw" "t"
        (some ⟨600⟩) threeRides).err = some (.transport msg) ∧
      ((requestPaymentGatewayPostPayment gatewayDown liveContext "http://gw" "t"
          (some ⟨600⟩) threeRides).attempts = 6 ∨
        gatewayDown.nextInterval ((requestPaymentGatewayPostPayment gatewayDown liveContext
          "http://gw" "t" (some ⟨600⟩) threeRides).attempts - 1) = none) :=
  have h := failed_call_returns_last_error_or_inner gatewayDown liveContext "http://gw" "t"
    (some ⟨600⟩) threeRides (fun _ => ⟨.transport "connection refused", rfl⟩)
  have ht := h.choose_spec.2.2.2 (fun _ => ⟨"connection refused", rfl⟩)
  ⟨ht.choose, ht.choose_spec.2.1, ht.choose_spec.2.2⟩

/-- C6, counterexample: POST answered 500, GET answered 200, and the callback
fails with an error it marked as permanent. Every attempt fails, yet the call
stops after the first one, with retries left and the back-off handing out an
interval, and returns the inner error, not the error the attempt produced. -/
theorem permanent_callback_error_is_unwrapped :
    (∀ i, (operation gatewayAmbiguous liveContext "http://gw" "t"
        (jsonMarshal (some ⟨600⟩)) permanentlyFailingRides i).1 =
      .error (.retrieve (.permanent (.plain "sql: database is closed")))) ∧
    (requestPaymentGatewayPostPayment gatewayAmbiguous liveContext "http://gw" "t"
        (some ⟨600⟩) permanentlyFailingRides).attempts = 1 ∧
    gatewayAmbiguous.nextInterval 0 = some 50 ∧
    (requestPaymentGatewayPostPayment gatewayAmbiguous liveContext "http://gw" "t"
        (some ⟨600⟩) permanentlyFailingRides).err =
      some (.retrieve (.plain "sql: database is closed")) ∧
    (requestPaymentGatewayPostPayment gatewayAmbiguous liveContext "http://gw" "t"
        (some ⟨600⟩) permanentlyFailingRides).err ≠
      some (.retrieve (.permanent (.plain "sql: database is closed"))) := by
  have h : requestPaymentGatewayPostPayment gatewayAmbiguous liveContext "http://gw" "t"
      (some ⟨600⟩) permanentlyFailingRides =
      { err := some (.retrieve (.plain "sql: database is closed")), attempts := 1,
        trace := [.request 0 (samplePost 600), .request 0 sampleGet, .callback 0] } := by
    unfold requestPaymentGatewayPostPayment Retry
    rw [retryLoop_permanent _ _ _ _ _ _ _
      (.retrieve (.permanent (.plain "sql: database is closed")))
      (.retrieve (.plain "sql: database is closed")) rfl rfl]
    rfl
  rw [h]
  exact ⟨fun _ => rfl, rfl, rfl, rfl, by decide⟩

/-- C7, amended: whenever the call returns nil, in its last attempt either the
POST was answered with 204, in which case nothing was compared, or the list of
payment records fetched from the gateway in that attempt has the same length
as the ride list the callback returned in that attempt. -/
theorem success_means_no_content_or_equal_counts (w : World) (ctx : Context)
    (paymentGatewayURL token : String) (param : Option paymentGatewayPostPaymentRequest)
    (retrieveRidesOrderByCreatedAtAsc : Nat → Except CallbackError (List Ride))
    (hnil : (requestPaymentGatewayPostPayment w ctx paymentGatewayURL token param
      retrieveRidesOrderByCreatedAtAsc).err = none) :
    (∃ req res, postRequest w paymentGatewayURL token (jsonMarshal param) = .ok req ∧
      httpClientDo w (ctx (.post ((requestPaymentGatewayPostPayment w ctx paymentGatewayURL
        token param retrieveRidesOrderByCreatedAtAsc).attempts - 1)))
        ((requestPaymentGatewayPostPayment w ctx paymentGatewayURL token param
          retrieveRidesOrderByCreatedAtAsc).attempts - 1) req = .ok res ∧
      res.StatusCode = StatusNoContent) ∨
    (∃ payments rides,
      gatewayRecords w paymentGatewayURL token
        ((requestPaymentGatewayPostPayment w ctx paymentGatewayURL token param
          retrieveRidesOrderByCreatedAtAsc).attempts - 1) = some payments ∧
      retrieveRidesOrderByCreatedAtAsc
        ((requestPaymentGatewayPostPayment w ctx paymentGatewayURL token param
          retrieveRidesOrderByCreatedAtAsc).attempts - 1) = .ok rides ∧
      rides.length = payments.length) := by
  have hs := call_spec w ctx paymentGatewayURL token param retrieveRidesOrderByCreatedAtAsc
  obtain ⟨u, hu⟩ := hs.success hnil
  exact operation_ok w ctx paymentGatewayURL token (jsonMarshal param)
    retrieveRidesOrderByCreatedAtAsc _ u hu

/-- Witness for C7, amended: the POST is answered 204. -/
theorem success_means_no_content_or_equal_counts_witness :
    (∃ req res, postRequest gatewayAccepting "http://gw" "t" (jsonMarshal (some ⟨500⟩)) =
        .ok req ∧
      httpClientDo gatewayAccepting (liveContext (.post ((requestPaymentGatewayPostPayment
        gatewayAccepting liveContext "http://gw" "t" (some ⟨500⟩) threeRides).attempts - 1)))
        ((requestPaymentGatewayPostPayment gatewayAccepting liveContext "http://gw" "t"
          (some ⟨500⟩) threeRides).attempts - 1) req = .ok res ∧
      res.StatusCode = StatusNoContent) ∨
    (∃ payments rides,
      gatewayRecords gatewayAccepting "http://gw" "t"
        ((requestPaymentGatewayPostPayment gatewayAccepting liveContext "http://gw" "t"
          (some ⟨500⟩) threeRides).attempts - 1) = some payments ∧
      threeRides
        ((requestPaymentGatewayPostPayment gatewayAccepting liveContext "http://gw" "t"
          (some ⟨500⟩) threeRides).attempts - 1) = .ok rides ∧
      rides.length = payments.length) :=
  success_means_no_content_or_equal_counts gatewayAccepting liveContext "http://gw" "t"
    (some ⟨500⟩) threeRides (by
      unfold requestPaymentGatewayPostPayment Retry
      rw [retryLoop_ok _ _ _ _ _ _ _ () rfl])

/-- C7, counterexample: the POST is answered 204 and the call returns nil, while
the gateway holds one payment record and the callback returns three rides. -/
theorem success_with_unequal_counts :
    (requestPaymentGatewayPostPayment gatewayAccepting liveContext "http://gw" "t"
        (some ⟨500⟩) threeRides).err = none ∧
    gatewayRecords gatewayAccepting "http://gw" "t"
      ((requestPaymentGatewayPostPayment gatewayAccepting liveContext "http://gw" "t"
        (some ⟨500⟩) threeRides).attempts - 1) = some [⟨500, "COMPLETED"⟩] ∧
    threeRides ((requestPaymentGatewayPostPayment gatewayAccepting liveContext "http://gw"
        "t" (some ⟨500⟩) threeRides).attempts - 1) = .ok ["ride-1", "ride-2", "ride-3"] ∧
    (["ride-1", "ride-2", "ride-3"] : List String).length ≠
      ([⟨500, "COMPLETED"⟩] : List paymentGatewayGetPaymentsResponseOne).length := by
  have h : requestPaymentGatewayPostPayment gatewayAccepting liveContext "http://gw" "t"
      (some ⟨500⟩) threeRides =
      { err := none, attempts := 1, trace := [.request 0 (samplePost 500)] } := by
    unfold requestPaymentGatewayPostPayment Retry
    rw [retryLoop_ok _ _ _ _ _ _ _ () rfl]
    rfl
  rw [h]
  exact ⟨rfl, rfl, rfl, by decide⟩

/-- C8, amended: an attempt whose POST request cannot be built, because the
gateway URL does not parse, performs no interaction at all. Every other
attempt hands one POST to the HTTP client; then one GET if and only if the POST
produced a response whose status is not 204; then invokes the callback once if
and only if that GET returned 200 and its body decoded. Nothing else happens,
and nothing happens twice. -/
theorem attempt_interactions (w : World) (ctx : Context)
    (paymentGatewayURL token b : String)
    (retrieveRidesOrderByCreatedAtAsc : Nat → Except CallbackError (List Ride)) (i : Nat) :
    (∀ e, postRequest w paymentGatewayURL token b = .error e →
      (operation w ctx paymentGatewayURL token b retrieveRidesOrderByCreatedAtAsc i).2 = []) ∧
    (∀ req, postRequest w paymentGatewayURL token b = .ok req →
      ∃ getReq, getRequest w paymentGatewayURL token = .ok getReq ∧
        req.method = "POST" ∧ getReq.method = "GET" ∧
        (((operation w ctx paymentGatewayURL token b retrieveRidesOrderByCreatedAtAsc i).2 =
              [.request i req] ∧
            ¬ ∃ res, httpClientDo w (ctx (.post i)) i req = .ok res ∧
              res.StatusCode ≠ StatusNoContent) ∨
          ((operation w ctx paymentGatewayURL token b retrieveRidesOrderByCreatedAtAsc i).2 =
              [.request i req, .request i getReq] ∧
            (∃ res, httpClientDo w (ctx (.post i)) i req = .ok res ∧
              res.StatusCode ≠ StatusNoContent) ∧
            ¬ ∃ getRes payments, httpClientDo w (ctx (.get i)) i getReq = .ok getRes ∧
              getRes.StatusCode = StatusOK ∧ w.decodePayments getRes.Body = .ok payments) ∨
          ((operation w ctx paymentGatewayURL token b retrieveRidesOrderByCreatedAtAsc i).2 =
              [.request i req, .request i getReq, .callback i] ∧
            (∃ res, httpClientDo w (ctx (.post i)) i req = .ok res ∧
              res.StatusCode ≠ StatusNoContent) ∧
            ∃ getRes payments, httpClientDo w (ctx (.get i)) i getReq = .ok getRes ∧
              getRes.StatusCode = StatusOK ∧
              w.decodePayments getRes.Body = .ok payments))) := by
  rcases operation_events w ctx paymentGatewayURL token b retrieveRidesOrderByCreatedAtAsc i
    with ⟨⟨e, he⟩, h⟩ | ⟨req, getReq, hreq, hgetReq, h⟩
  · refine ⟨fun _ _ => h, fun req hreq => ?_⟩
    rw [he] at hreq
    cases hreq
  · refine ⟨fun e he => ?_, fun req2 hreq2 => ?_⟩
    · rw [hreq] at he
      cases he
    · rw [hreq] at hreq2
      simp only [Except.ok.injEq] at hreq2
      subst hreq2
      exact ⟨getReq, hgetReq, postRequest_method w paymentGatewayURL token b req hreq,
        getRequest_method w paymentGatewayURL token getReq hgetReq, h⟩

/-- C8, counterexample: with a gateway URL ending in a line break the POST request
cannot be built, and the attempt performs no POST at all. -/
theorem no_post_when_url_does_not_parse :
    (operation gatewayMisconfigured liveContext "http://gw\n" "t" (jsonMarshal (some ⟨600⟩))
        threeRides 0) =
      (.error (.newRequest "net/url: invalid control character in URL"), []) ∧
    ¬ ∃ req, Event.request 0 req ∈
      (operation gatewayMisconfigured liveContext "http://gw\n" "t"
        (jsonMarshal (some ⟨600⟩)) threeRides 0).2 := by
  have h : operation gatewayMisconfigured liveContext "http://gw\n" "t"
      (jsonMarshal (some ⟨600⟩)) threeRides 0 =
      (.error (.newRequest "net/url: invalid control character in URL"), []) := by
    rfl
  rw [h]
  exact ⟨rfl, by simp⟩

/-- C9, amended: the retry loop does not observe the calling context. If the
context is cancelled during the back-off sleep after a failed attempt k (the
loop backs off only after errors that are not permanent, with retries left and
an interval handed out), the sleep runs to its end and the closure is executed
again; every
later attempt fails before any GET and any callback invocation, either building
its request or inside the HTTP client, which rejects the POST handed to it with
the context's error; the call returns such an error once the retries are used
up or the back-off stops. -/
theorem cancellation_during_backoff (w : World) (ctx : Context)
    (paymentGatewayURL token : String) (param : Option paymentGatewayPostPaymentRequest)
    (retrieveRidesOrderByCreatedAtAsc : Nat → Except CallbackError (List Ride))
    (k : Nat) (hk : k < 5) (hmono : ctx.Monotone) (hcancel : ctx (.sleep k) = true)
    (hfail : ∀ j, j ≤ k → ∃ e, (operation w ctx paymentGatewayURL token (jsonMarshal param)
      retrieveRidesOrderByCreatedAtAsc j).1 = .error e ∧ asPermanent e = none)
    (hnext : ∀ j, j ≤ k → ∃ d, w.nextInterval j = some d) :
    k + 2 ≤ (requestPaymentGatewayPostPayment w ctx paymentGatewayURL token param
      retrieveRidesOrderByCreatedAtAsc).attempts ∧
    (∀ j, k < j →
      (∃ msg, operation w ctx paymentGatewayURL token (jsonMarshal param)
        retrieveRidesOrderByCreatedAtAsc j = (.error (.newRequest msg), [])) ∨
      (∃ req, postRequest w paymentGatewayURL token (jsonMarshal param) = .ok req ∧
        operation w ctx paymentGatewayURL token (jsonMarshal param)
          retrieveRidesOrderByCreatedAtAsc j =
          (.error (.transport "context canceled"), [.request j req]))) ∧
    (∃ e, (requestPaymentGatewayPostPayment w ctx paymentGatewayURL token param
        retrieveRidesOrderByCreatedAtAsc).err = some e ∧
      (e = .transport "context canceled" ∨ ∃ msg, e = .newRequest msg)) ∧
    ((requestPaymentGatewayPostPayment w ctx paymentGatewayURL token param
        retrieveRidesOrderByCreatedAtAsc).attempts = 6 ∨
      w.nextInterval ((requestPaymentGatewayPostPayment w ctx paymentGatewayURL token param
        retrieveRidesOrderByCreatedAtAsc).attempts - 1) = none) := by
  have hreach := call_reaches w ctx paymentGatewayURL token param
    retrieveRidesOrderByCreatedAtAsc k hk hfail hnext
  have hlater : ∀ j, k < j →
      (∃ msg, operation w ctx paymentGatewayURL token (jsonMarshal param)
        retrieveRidesOrderByCreatedAtAsc j = (.error (.newRequest msg), [])) ∨
      (∃ req, postRequest w paymentGatewayURL token (jsonMarshal param) = .ok req ∧
        operation w ctx paymentGatewayURL token (jsonMarshal param)
          retrieveRidesOrderByCreatedAtAsc j =
          (.error (.transport "context canceled"), [.request j req])) :=
    fun j hj => operation_cancelled w ctx paymentGatewayURL token (jsonMarshal param)
      retrieveRidesOrderByCreatedAtAsc j (Context.done_after_sleep ctx hmono k hcancel j hj)
  have hs := call_spec w ctx paymentGatewayURL token param retrieveRidesOrderByCreatedAtAsc
  generalize requestPaymentGatewayPostPayment w ctx paymentGatewayURL token param
    retrieveRidesOrderByCreatedAtAsc = r at hs hreach
  refine ⟨hreach, hlater, ?_, ?_⟩
  · have hlast := hlater (r.attempts - 1) (by omega)
    cases herr : r.err with
    | none =>
      obtain ⟨u, hu⟩ := hs.success herr
      rcases hlast with ⟨msg, h⟩ | ⟨req, _, h⟩ <;> rw [h] at hu <;> cases hu
    | some e =>
      refine ⟨e, rfl, ?_⟩
      rcases hs.failure e herr with ⟨h1, _, _⟩ | ⟨e2, h1, h2⟩
      · rcases hlast with ⟨msg, h⟩ | ⟨req, _, h⟩
        · rw [h] at h1
          simp only [Except.error.injEq] at h1
          exact Or.inr ⟨msg, h1.symm⟩
        · rw [h] at h1
          simp only [Except.error.injEq] at h1
          exact Or.inl h1.symm
      · rcases hlast with ⟨msg, h⟩ | ⟨req, _, h⟩ <;> rw [h] at h1 <;>
          simp only [Except.error.injEq] at h1 <;> subst h1 <;> cases h2
  · cases herr : r.err with
    | none =>
      obtain ⟨u, hu⟩ := hs.success herr
      rcases hlater (r.attempts - 1) (by omega) with ⟨msg, h⟩ | ⟨req, _, h⟩ <;>
        rw [h] at hu <;> cases hu
    | some e =>
      have hup := hs.upper
      rcases hs.failure e herr with ⟨_, _, h2⟩ | ⟨e2, h1, h2⟩
      · simp only [Nat.sub_zero, Nat.zero_add] at h2 hup
        rcases h2 with h2 | h2
        · left; omega
        · right; exact h2
      · rcases hlater (r.attempts - 1) (by omega) with ⟨msg, h⟩ | ⟨req, _, h⟩ <;>
          rw [h] at h1 <;> simp only [Except.error.injEq] at h1 <;> subst h1 <;> cases h2

/-- Witness for C9, amended: the gateway refuses the first connection and the
context is cancelled during the first back-off sleep. -/
theorem cancellation_during_backoff_witness :
    0 + 2 ≤ (requestPaymentGatewayPostPayment gatewayDown cancelledInFirstSleep "http://gw"
      "t" (some ⟨600⟩) threeRides).attempts ∧
    (∀ j, 0 < j →
      (∃ msg, operation gatewayDown cancelledInFirstSleep "http://gw" "t"
        (jsonMarshal (some ⟨600⟩)) threeRides j = (.error (.newRequest msg), [])) ∨
      (∃ req, postRequest gatewayDown "http://gw" "t" (jsonMarshal (some ⟨600⟩)) = .ok req ∧
        operation gatewayDown cancelledInFirstSleep "http://gw" "t"
          (jsonMarshal (some ⟨600⟩)) threeRides j =
          (.error (.transport "context canceled"), [.request j req]))) ∧
    (∃ e, (requestPaymentGatewayPostPayment gatewayDown cancelledInFirstSleep "http://gw"
        "t" (some ⟨600⟩) threeRides).err = some e ∧
      (e = .transport "context canceled" ∨ ∃ msg, e = .newRequest msg)) ∧
    ((requestPaymentGatewayPostPayment gatewayDown cancelledInFirstSleep "http://gw" "t"
        (some ⟨600⟩) threeRides).attempts = 6 ∨
      gatewayDown.nextInterval ((requestPaymentGatewayPostPayment gatewayDown
        cancelledInFirstSleep "http://gw" "t" (some ⟨600⟩) threeRides).attempts - 1) = none) :=
  cancellation_during_backoff gatewayDown cancelledInFirstSleep "http://gw" "t"
    (some ⟨600⟩) threeRides 0 (by decide)
    ⟨fun i h => h, fun _ _ => rfl, fun i _ => by simp [cancelledInFirstSleep]⟩ rfl
    (fun j hj => by
      have : j = 0 := by omega
      subst this
      exact ⟨.transport "connection refused", rfl, rfl⟩)
    (fun _ _ => ⟨50, rfl⟩)

/-- C9, counterexample: the context is cancelled during the back-off sleep after
the first, failed attempt; the closure is nevertheless executed five more times
and the POST of the second attempt is handed to the HTTP client. -/
theorem closure_reruns_after_cancellation :
    cancelledInFirstSleep (.sleep 0) = true ∧
    (operation gatewayDown cancelledInFirstSleep "http://gw" "t" (jsonMarshal (some ⟨600⟩))
      threeRides 0).1 = .error (.transport "connection refused") ∧
    (requestPaymentGatewayPostPayment gatewayDown cancelledInFirstSleep "http://gw" "t"
      (some ⟨600⟩) threeRides).attempts = 6 ∧
    Event.request 1 (samplePost 600) ∈
      (requestPaymentGatewayPostPayment gatewayDown cancelledInFirstSleep "http://gw" "t"
        (some ⟨600⟩) threeRides).trace := by
  have hop : ∀ j, (operation gatewayDown cancelledInFirstSleep "http://gw" "t"
      (jsonMarshal (some ⟨600⟩)) threeRides j).1 =
        .error (.transport (if j = 0 then "connection refused" else "context canceled")) ∧
      (operation gatewayDown cancelledInFirstSleep "http://gw" "t"
        (jsonMarshal (some ⟨600⟩)) threeRides j).2 = [.request j (samplePost 600)] := by
    intro j
    cases j with
    | zero => exact ⟨rfl, rfl⟩
    | succ n =>
      have hd : cancelledInFirstSleep (.post (n + 1)) = true := by
        simp [cancelledInFirstSleep]
      have hreq : postRequest gatewayDown "http://gw" "t" (jsonMarshal (some ⟨600⟩)) =
          .ok (samplePost 600) := rfl
      simp [operation, hreq, httpClientDo, hd]
  have hs := call_spec gatewayDown cancelledInFirstSleep "http://gw" "t" (some ⟨600⟩)
    threeRides
  have hreach := call_reaches gatewayDown cancelledInFirstSleep "http://gw" "t"
    (some ⟨600⟩) threeRides 4 (by decide) (fun j _ => ⟨_, (hop j).1, rfl⟩) (fun _ _ => ⟨50, rfl⟩)
  generalize requestPaymentGatewayPostPayment gatewayDown cancelledInFirstSleep "http://gw"
    "t" (some ⟨600⟩) threeRides = r at hs hreach
  have hup := hs.upper
  simp only [Nat.sub_zero, Nat.zero_add] at hup
  have hatt : r.attempts = 6 := by omega
  refine ⟨rfl, (hop 0).1, hatt, ?_⟩
  rw [hs.events, hatt]
  simp only [List.nil_append, List.mem_flatten, List.mem_map]
  exact ⟨_, ⟨1, by decide, rfl⟩, by rw [(hop 1).2]; simp⟩

end Claims

end PaymentGateway

namespace Geo

/-! ## Conversions between `int` and `float64` -/

theorem float64_fields (s e m : Nat) (hs : s ≤ 1) (he : e < 2048) (hm : m < 2 ^ 52) :
    (s * 2 ^ 63 + e * 2 ^ 52 + m) / 2 ^ 63 % 2 = s ∧
    (s * 2 ^ 63 + e * 2 ^ 52 + m) / 2 ^ 52 % 2048 = e ∧
    (s * 2 ^ 63 + e * 2 ^ 52 + m) % 2 ^ 52 = m := by
  norm_num at hm ⊢
  omega

/-- Decoding a normal number whose exponent is at most 52: the fraction bits
below the binary point are dropped. -/
theorem intOfFloat64_small (impl : Nat → Int) (s e a : Nat) (hs : s ≤ 1) (he : e ≤ 52)
    (hlo : 2 ^ e ≤ a) (hhi : a < 2 ^ (e + 1)) :
    intOfFloat64 impl (s * 2 ^ 63 + (e + 1023) * 2 ^ 52 + (a * 2 ^ (52 - e) - 2 ^ 52)) =
      if s = 1 then -(a : Int) else (a : Int) := by
  have hP : 2 ^ e * 2 ^ (52 - e) = 2 ^ 52 := by
    rw [← Nat.pow_add]; congr 1; omega
  have hPpos : 0 < 2 ^ (52 - e) := Nat.two_pow_pos _
  have h1 : 2 ^ 52 ≤ a * 2 ^ (52 - e) := by
    rw [← hP]; exact Nat.mul_le_mul_right _ hlo
  have h2 : a * 2 ^ (52 - e) < 2 ^ 53 := by
    have : 2 ^ (e + 1) * 2 ^ (52 - e) = 2 ^ 53 := by
      rw [← Nat.pow_add]; congr 1; omega
    rw [← this]; exact Nat.mul_lt_mul_of_pos_right hhi hPpos
  have ha63 : a < 2 ^ 63 := by
    have : 2 ^ (e + 1) ≤ 2 ^ 63 := Nat.pow_le_pow_right (by decide) (by omega)
    omega
  obtain ⟨f1, f2, f3⟩ := float64_fields s (e + 1023) (a * 2 ^ (52 - e) - 2 ^ 52) hs (by omega)
    (by omega)
  unfold intOfFloat64
  simp only [f1, f2, f3]
  have hsig : 2 ^ 52 + (a * 2 ^ (52 - e) - 2 ^ 52) = a * 2 ^ (52 - e) := by omega
  rw [hsig]
  have hne : ¬ (e + 1023 = 2047) := by omega
  have hge : ¬ (e + 1023 < 1023) := by omega
  simp only [hne, hge, if_false]
  have hmag : (if 1075 ≤ e + 1023 then a * 2 ^ (52 - e) * 2 ^ (e + 1023 - 1075)
      else a * 2 ^ (52 - e) / 2 ^ (1075 - (e + 1023))) = a := by
    split
    · have h52 : e = 52 := by omega
      subst h52
      simp
    · have : 1075 - (e + 1023) = 52 - e := by omega
      rw [this]
      exact Nat.mul_div_cancel _ hPpos
  rw [hmag]
  have hlt : a < 2 ^ 63 := ha63
  have hle : a ≤ 2 ^ 63 := by omega
  simp only [hlt, hle, if_true]

theorem intOfFloat64_zero (impl : Nat → Int) : intOfFloat64 impl 0 = 0 := by
  unfold intOfFloat64
  norm_num

/-- Decoding the bit pattern of plus or minus two to the 53. -/
theorem intOfFloat64_two_pow_53 (impl : Nat → Int) (s : Nat) (hs : s ≤ 1) :
    intOfFloat64 impl (s * 2 ^ 63 + (53 + 1023) * 2 ^ 52 + 0) =
      if s = 1 then -(2 ^ 53 : Int) else (2 ^ 53 : Int) := by
  obtain ⟨f1, f2, f3⟩ := float64_fields s (53 + 1023) 0 hs (by decide) (by decide)
  unfold intOfFloat64
  simp only [f1, f2, f3]
  norm_num

theorem float64OfInt_roundtrip (impl : Nat → Int) (n : Int)
    (hlo : -(2 ^ 53) ≤ n) (hhi : n ≤ 2 ^ 53) :
    intOfFloat64 impl (float64OfInt n) = n ∧ float64OfInt n < 2 ^ 64 := by
  by_cases hn0 : n = 0
  · subst hn0
    exact ⟨intOfFloat64_zero impl, by decide⟩
  · have ha0 : n.natAbs ≠ 0 := by omega
    have ha53 : n.natAbs ≤ 2 ^ 53 := by omega
    have hlo2 : 2 ^ n.natAbs.log2 ≤ n.natAbs := Nat.log2_self_le ha0
    have hhi2 : n.natAbs < 2 ^ (n.natAbs.log2 + 1) := Nat.lt_log2_self
    have he53 : n.natAbs.log2 ≤ 53 := by
      have : n.natAbs.log2 < 54 := (Nat.log2_lt ha0).2 (by omega)
      omega
    have hsign : (if n < 0 then 2 ^ 63 else 0) = (if n < 0 then 1 else 0) * 2 ^ 63 := by
      split <;> simp
    have hs : (if n < 0 then 1 else 0) ≤ 1 := by split <;> simp
    have hval : (if (if n < 0 then 1 else 0) = 1 then -(n.natAbs : Int) else (n.natAbs : Int)) =
        n := by
      by_cases hneg : n < 0
      · simp only [hneg, if_true]; omega
      · simp only [hneg, if_false]; omega
    by_cases he : n.natAbs.log2 ≤ 52
    · have hbits : float64OfInt n = (if n < 0 then 1 else 0) * 2 ^ 63 +
          (n.natAbs.log2 + 1023) * 2 ^ 52 +
          (n.natAbs * 2 ^ (52 - n.natAbs.log2) - 2 ^ 52) := by
        unfold float64OfInt
        simp only [hn0, if_false, he, if_true, hsign]
      rw [hbits]
      refine ⟨?_, ?_⟩
      · rw [intOfFloat64_small impl _ _ _ hs he hlo2 hhi2]
        exact hval
      · have hm : n.natAbs * 2 ^ (52 - n.natAbs.log2) < 2 ^ 53 := by
          have : 2 ^ (n.natAbs.log2 + 1) * 2 ^ (52 - n.natAbs.log2) = 2 ^ 53 := by
            rw [← Nat.pow_add]; congr 1; omega
          rw [← this]
          exact Nat.mul_lt_mul_of_pos_right hhi2 (Nat.two_pow_pos _)
        generalize n.natAbs * 2 ^ (52 - n.natAbs.log2) = m at hm
        generalize n.natAbs.log2 = e at he
        generalize (if n < 0 then 1 else 0) = s at hs
        norm_num at hm ⊢
        omega
    · have he2 : n.natAbs.log2 = 53 := by omega
      have ha : n.natAbs = 2 ^ 53 := by
        rw [he2] at hlo2
        omega
      have hbits : float64OfInt n = (if n < 0 then 1 else 0) * 2 ^ 63 +
          (53 + 1023) * 2 ^ 52 + 0 := by
        have hl : Nat.log2 (2 ^ 53) = 53 := by rw [← ha]; exact he2
        unfold float64OfInt
        simp only [hn0, if_false, ha, hl, hsign]
        norm_num
      rw [hbits]
      refine ⟨?_, ?_⟩
      · rw [intOfFloat64_two_pow_53 impl _ hs]
        rw [ha] at hval
        simpa using hval
      · generalize (if n < 0 then 1 else 0) = s at hs
        norm_num
        omega

/-! ## Bytes -/

theorem Uint64_littleEndianBytes64 (v : Nat) (h : v < 2 ^ 64) :
    ByteOrder.LittleEndian.Uint64 (littleEndianBytes64 v) = v := by
  simp only [ByteOrder.Uint64, littleEndianBytes64, List.getD_cons_zero, List.getD_cons_succ]
  norm_num at h ⊢
  omega

theorem littleEndianBytes64_lt (v : Nat) : ∀ b ∈ littleEndianBytes64 v, b < 256 := by
  intro b hb
  simp only [littleEndianBytes64, List.mem_cons, List.mem_singleton, List.not_mem_nil,
    or_false] at hb
  rcases hb with h | h | h | h | h | h | h | h <;> rw [h] <;> exact Nat.mod_lt _ (by decide)

/-- The buffer `Value` returns, byte by byte. -/
theorem GeoPoint.Value_eq (g : GeoPoint) :
    g.Value = .ok (1 :: (littleEndianBytes32 1 ++ (littleEndianBytes64 (float64OfInt g.Lon) ++
      littleEndianBytes64 (float64OfInt g.Lat)))) := rfl

/-- C10: for a point whose coordinates are integers of absolute value at most two
to the 53, `Value` returns without error a slice of 21 bytes, the first being 1,
followed by the little-endian type 1, the little-endian bits of the longitude
as a double (X) and those of the latitude (Y); `Scan` applied to that slice
returns no error and sets both fields of its receiver to those of the point. -/
theorem scan_value_roundtrip (impl : Nat → Int) (g receiver : GeoPoint)
    (hLat : -(2 ^ 53) ≤ g.Lat ∧ g.Lat ≤ 2 ^ 53)
    (hLon : -(2 ^ 53) ≤ g.Lon ∧ g.Lon ≤ 2 ^ 53) :
    ∃ buf, g.Value = .ok buf ∧ buf.length = 21 ∧ (∀ b ∈ buf, b < 256) ∧
      buf.getD 0 0 = 1 ∧
      ByteOrder.LittleEndian.Uint32 (slice buf 1 5) = 1 ∧
      ByteOrder.LittleEndian.Uint64 (slice buf 5 13) = float64OfInt g.Lon ∧
      ByteOrder.LittleEndian.Uint64 (slice buf 13 21) = float64OfInt g.Lat ∧
      intOfFloat64 impl (float64OfInt g.Lon) = g.Lon ∧
      intOfFloat64 impl (float64OfInt g.Lat) = g.Lat ∧
      GeoPoint.Scan impl receiver (.bytes buf) = .ok g := by
  obtain ⟨hx, hxlt⟩ := float64OfInt_roundtrip impl g.Lon hLon.1 hLon.2
  obtain ⟨hy, hylt⟩ := float64OfInt_roundtrip impl g.Lat hLat.1 hLat.2
  have h32 : ByteOrder.LittleEndian.Uint32 (littleEndianBytes32 1) = 1 := by decide
  have hsx : slice (1 :: (littleEndianBytes32 1 ++ (littleEndianBytes64 (float64OfInt g.Lon) ++
      littleEndianBytes64 (float64OfInt g.Lat)))) 5 13 =
      littleEndianBytes64 (float64OfInt g.Lon) := rfl
  have hsy : slice (1 :: (littleEndianBytes32 1 ++ (littleEndianBytes64 (float64OfInt g.Lon) ++
      littleEndianBytes64 (float64OfInt g.Lat)))) 13 21 =
      littleEndianBytes64 (float64OfInt g.Lat) := rfl
  have hst : slice (1 :: (littleEndianBytes32 1 ++ (littleEndianBytes64 (float64OfInt g.Lon) ++
      littleEndianBytes64 (float64OfInt g.Lat)))) 1 5 = littleEndianBytes32 1 := rfl
  have hux := Uint64_littleEndianBytes64 _ hxlt
  have huy := Uint64_littleEndianBytes64 _ hylt
  refine ⟨_, g.Value_eq, rfl, ?_, rfl, ?_, ?_, ?_, hx, hy, ?_⟩
  · intro b hb
    simp only [List.mem_cons, List.mem_append] at hb
    rcases hb with h | h | h | h
    · omega
    · simp only [littleEndianBytes32, List.mem_cons, List.mem_singleton, List.not_mem_nil,
        or_false] at h
      rcases h with h | h | h | h <;> rw [h] <;> exact Nat.mod_lt _ (by decide)
    · exact littleEndianBytes64_lt _ b h
    · exact littleEndianBytes64_lt _ b h
  · rw [hst]; exact h32
  · rw [hsx]; exact hux
  · rw [hsy]; exact huy
  · unfold GeoPoint.Scan
    have hlen : ¬ ((1 :: (littleEndianBytes32 1 ++ (littleEndianBytes64 (float64OfInt g.Lon) ++
        littleEndianBytes64 (float64OfInt g.Lat)))).length < 21) := by
      simp [littleEndianBytes32, littleEndianBytes64]
    simp only [hlen, if_false, List.getD_cons_zero, if_true, hst, h32, hsx, hsy, hux, huy,
      hx, hy, ne_eq, not_true_eq_false]

/-- Witness for C10: latitude 35, longitude 139. -/
theorem scan_value_roundtrip_witness :
    ∃ buf, (GeoPoint.mk 35 139).Value = .ok buf ∧ buf.length = 21 ∧ (∀ b ∈ buf, b < 256) ∧
      buf.getD 0 0 = 1 ∧
      ByteOrder.LittleEndian.Uint32 (slice buf 1 5) = 1 ∧
      ByteOrder.LittleEndian.Uint64 (slice buf 5 13) = float64OfInt (GeoPoint.mk 35 139).Lon ∧
      ByteOrder.LittleEndian.Uint64 (slice buf 13 21) = float64OfInt (GeoPoint.mk 35 139).Lat ∧
      intOfFloat64 (fun _ => 0) (float64OfInt (GeoPoint.mk 35 139).Lon) =
        (GeoPoint.mk 35 139).Lon ∧
      intOfFloat64 (fun _ => 0) (float64OfInt (GeoPoint.mk 35 139).Lat) =
        (GeoPoint.mk 35 139).Lat ∧
      GeoPoint.Scan (fun _ => 0) (GeoPoint.mk 0 0) (.bytes buf) = .ok (GeoPoint.mk 35 139) :=
  scan_value_roundtrip (fun _ => 0) (GeoPoint.mk 35 139) (GeoPoint.mk 0 0)
    ⟨by norm_num, by norm_num⟩ ⟨by norm_num, by norm_num⟩

end Geo
